import Mathlib

/-!
# Verification of the UAV strategic-deconfliction core (Method 2)

Shallow embedding of the continuous segment-distance conflict detector:
`spatial_analyzer.py` (closest-point solver, conflict classifier, pairwise
aggregator), `conflict_detector.py` (`detect_all_conflicts`),
`data_loader.py` (`validate_waypoint_data`) and
`main_controller.py` (`analyze_flight_data`).

Modelling conventions:
* Python floats are modelled as exact rationals `ℚ`; `datetime` values are
  modelled as rational numbers of seconds on an absolute axis, so that
  `convert_timestamp_to_seconds(ts, ref) = ts - ref` and
  `reference_time + timedelta(seconds=t)` is `ref + t`.
* Distances are represented by their squares (`ℚ`): the source computes
  `math.sqrt` of each squared norm and only ever compares or returns the
  results, and `Real.sqrt` is strictly monotone on nonnegative reals, so every
  comparison made by the source coincides with the comparison of the squares
  (see `ltSqrt_iff_sqrt_lt` for the threshold comparison, which also handles
  nonpositive thresholds exactly).  The field that the source fills with a
  distance is here filled with the squared distance (`dsq`, `minDistSq`).
* Fallible Python code (a raised exception) is modelled with `Option`:
  `none` is an uncaught exception.
-/

namespace UAV

/-- A 3-dimensional spatial vector (the `[:3]` slice of a segment endpoint). -/
structure Vec3 where
  x : ℚ
  y : ℚ
  z : ℚ
deriving DecidableEq, Repr

/-- `sub` from `closest_points_on_segments_in_3D`: componentwise difference. -/
def sub (a b : Vec3) : Vec3 := ⟨a.x - b.x, a.y - b.y, a.z - b.z⟩

/-- `add`: componentwise sum. -/
def add (a b : Vec3) : Vec3 := ⟨a.x + b.x, a.y + b.y, a.z + b.z⟩

/-- `scale`: multiply every component by a scalar. -/
def scale (a : Vec3) (s : ℚ) : Vec3 := ⟨a.x * s, a.y * s, a.z * s⟩

/-- `dot`: Euclidean inner product. -/
def dot (a b : Vec3) : ℚ := a.x * b.x + a.y * b.y + a.z * b.z

/-- Squared Euclidean norm; the source's `norm(a)` is `Real.sqrt (normSq a)`. -/
def normSq (a : Vec3) : ℚ := dot a a

/-- `clamp(x, 0.0, 1.0) = max(0, min(x, 1))`. -/
def clamp (x : ℚ) : ℚ := max 0 (min x 1)

/-- A segment endpoint `[x, y, z, time_seconds]`. -/
structure Pt4 where
  x : ℚ
  y : ℚ
  z : ℚ
  t : ℚ
deriving DecidableEq, Repr

/-- The spatial slice `p[:3]` of an endpoint. -/
def Pt4.pos (p : Pt4) : Vec3 := ⟨p.x, p.y, p.z⟩

/-- `time_calculations(ta1, ta2, s, tb1, tb2, t)`: map the two segment
parameters back to instants by linear interpolation of each segment's own
start/end times. -/
def timeCalculations (ta1 ta2 s tb1 tb2 t : ℚ) : ℚ × ℚ :=
  ((ta2 - ta1) * s + ta1, (tb2 - tb1) * t + tb1)

/-- `point_to_seg_closest(A, B, X)`: project `X` onto segment `A–B`, clamp the
parameter to `[0,1]`, and return the clamped point together with the clamped
parameter.  The division is guarded by `dot(AB, AB) > eps`. -/
def pointToSegClosest (A B X : Vec3) (eps : ℚ) : Vec3 × ℚ :=
  let AB := sub B A
  let t := if dot AB AB > eps then dot (sub X A) AB / dot AB AB else 0
  let tc := clamp t
  (add A (scale AB tc), tc)

/-- One endpoint-fallback candidate: closest point on `P`, its parameter on
segment `P`, closest point on `Q`, its parameter on segment `Q`, and the
squared distance between the two points (the source keeps the same data in
`best_pair` plus `best_dist`). -/
structure Cand where
  cp : Vec3
  sp : ℚ
  cq : Vec3
  tp : ℚ
  dsq : ℚ
deriving DecidableEq, Repr

/-- One iteration of the fallback loop: replace the running best candidate
when the new candidate is strictly closer (`if dPQ < best_dist`), so ties keep
the first-found candidate. -/
def pickBest (best c : Cand) : Cand := if c.dsq < best.dsq then c else best

/-- The value returned by `closest_points_on_segments_in_3D`:
`(closest_P, closest_Q, distance, (t1, t2))`, with the distance squared. -/
structure SegResult where
  cp : Vec3
  cq : Vec3
  dsq : ℚ
  t1 : ℚ
  t2 : ℚ
deriving DecidableEq, Repr

/-- The default epsilon `1e-12` of `closest_points_on_segments_in_3D`. -/
def defaultEps : ℚ := 1 / 1000000000000

/-- The unclamped infinite-line parameters `(s, t)` of
`closest_points_on_segments_in_3D`: form `u, v, w` and the scalar products
`a, b, c, d, e`, and either solve the 2×2 system (when `|D| > eps`) or take
the parallel/degenerate branch `s = 0`, `t = e/c` (or `t = 0` when `c ≤ eps`).
Factored out of the solver verbatim so that proofs can case on the clamp test
without unfolding these expressions. -/
def lineParams (A1 A2 B1 B2 : Pt4) (eps : ℚ) : ℚ × ℚ :=
  let u := sub A2.pos A1.pos
  let v := sub B2.pos B1.pos
  let w := sub B1.pos A1.pos
  let a := dot u u
  let b := dot u v
  let c := dot v v
  let d := dot u w
  let e := dot v w
  let D := -(a * c) + b * b
  if |D| > eps then ((b * e - c * d) / D, (a * e - b * d) / D)
  else (0, if c > eps then e / c else 0)

/-- `closest_points_on_segments_in_3D(A1, A2, B1, B2, eps=1e-12)`.

Direct translation of the source: slice off positions and times, compute the
unclamped infinite-line parameters (`lineParams`, the `D`/parallel epsilon
branching), clamp them; if the unclamped parameters already lie in the unit
square return the clamped points, their distance and the time-mapped instants;
otherwise evaluate the four endpoint candidates `P1`-vs-`Q`, `P2`-vs-`Q`,
`Q1`-vs-`P`, `Q2`-vs-`P` in that order, keeping the strictly best
(`float('inf')` start means the first candidate always becomes the initial
best).  Distances are carried squared. -/
def closestPointsOnSegmentsIn3D (A1 A2 B1 B2 : Pt4) (eps : ℚ := defaultEps) :
    SegResult :=
  let P1 := A1.pos
  let P2 := A2.pos
  let Q1 := B1.pos
  let Q2 := B2.pos
  let tp1 := A1.t
  let tp2 := A2.t
  let tq1 := B1.t
  let tq2 := B2.t
  let u := sub P2 P1
  let v := sub Q2 Q1
  let s := (lineParams A1 A2 B1 B2 eps).1
  let t := (lineParams A1 A2 B1 B2 eps).2
  let sc := clamp s
  let tc := clamp t
  let Pc := add P1 (scale u sc)
  let Qc := add Q1 (scale v tc)
  if 0 ≤ s ∧ s ≤ 1 ∧ 0 ≤ t ∧ t ≤ 1 then
    let ts := timeCalculations tp1 tp2 sc tq1 tq2 tc
    ⟨Pc, Qc, normSq (sub Pc Qc), ts.1, ts.2⟩
  else
    let pr1 := pointToSegClosest Q1 Q2 P1 eps
    let c1 : Cand := ⟨P1, 0, pr1.1, pr1.2, normSq (sub P1 pr1.1)⟩
    let pr2 := pointToSegClosest Q1 Q2 P2 eps
    let c2 : Cand := ⟨P2, 1, pr2.1, pr2.2, normSq (sub P2 pr2.1)⟩
    let pr3 := pointToSegClosest P1 P2 Q1 eps
    let c3 : Cand := ⟨pr3.1, pr3.2, Q1, 0, normSq (sub pr3.1 Q1)⟩
    let pr4 := pointToSegClosest P1 P2 Q2 eps
    let c4 : Cand := ⟨pr4.1, pr4.2, Q2, 1, normSq (sub pr4.1 Q2)⟩
    let best := pickBest (pickBest (pickBest c1 c2) c3) c4
    let ts := timeCalculations tp1 tp2 best.sp tq1 tq2 best.tp
    ⟨best.cp, best.cq, best.dsq, ts.1, ts.2⟩

/-- The configurable state of `SpatialAnalyzer.__init__` that the conflict
logic reads (`interpolation_step` only feeds the disabled sampling mode). -/
structure SpatialAnalyzer where
  droneRadius : ℚ
  safetyTime : ℚ
deriving DecidableEq, Repr

/-- `self.safety_threshold = drone_radius*3`. -/
def SpatialAnalyzer.safetyThreshold (sa : SpatialAnalyzer) : ℚ :=
  sa.droneRadius * 3

/-- `check_for_conflicts(results)` as a unit on a given numeric distance:
nothing in the classifier looks inside `min_dist_val` beyond order
comparisons, so the distance is an arbitrary rational here.  Returns the
conflict level together with the data payload (`None`s when the level is 0). -/
def checkForConflicts (sa : SpatialAnalyzer) (cp cq : Vec3)
    (minDistVal t1 t2 : ℚ) : ℕ × Option (Vec3 × Vec3 × ℚ × ℚ) :=
  let count : ℕ :=
    if minDistVal < sa.safetyThreshold then
      if |t2 - t1| < sa.safetyTime then 2 else 1
    else 0
  if 0 < count then (count, some (cp, cq, t1, t2)) else (count, none)

/-- `Real.sqrt dsq < thr`, written rationally: for `0 ≤ dsq` this is exactly
the source's comparison of the Euclidean distance against the threshold
(`ltSqrt_iff_sqrt_lt`), including nonpositive thresholds. -/
def ltSqrt (dsq thr : ℚ) : Prop := 0 < thr ∧ dsq < thr ^ 2

instance (dsq thr : ℚ) : Decidable (ltSqrt dsq thr) := by
  unfold ltSqrt; infer_instance

/-- `check_for_conflicts` as invoked by the pipeline, where `min_dist_val` is
the Euclidean distance `sqrt r.dsq` delivered by the solver; the threshold
comparison is the rational form of `sqrt r.dsq < safety_threshold`. -/
def checkForConflictsSq (sa : SpatialAnalyzer) (r : SegResult) :
    ℕ × Option (Vec3 × Vec3 × ℚ × ℚ) :=
  let count : ℕ :=
    if ltSqrt r.dsq sa.safetyThreshold then
      if |r.t2 - r.t1| < sa.safetyTime then 2 else 1
    else 0
  if 0 < count then (count, some (r.cp, r.cq, r.t1, r.t2)) else (count, none)

/-- A validated waypoint: numeric coordinates plus an absolute timestamp in
seconds (`datetime` modelled on a rational second axis). -/
structure Waypoint where
  x : ℚ
  y : ℚ
  z : ℚ
  timestamp : ℚ
deriving DecidableEq, Repr, Inhabited

instance : Inhabited Pt4 := ⟨⟨0, 0, 0, 0⟩⟩

/-- One segment endpoint `[x, y, z, convert_timestamp_to_seconds(ts, ref)]`,
with `convert_timestamp_to_seconds(ts, ref) = ts - ref`. -/
def wpToPt4 (ref : ℚ) (w : Waypoint) : Pt4 :=
  ⟨w.x, w.y, w.z, w.timestamp - ref⟩

/-- `convert_waypoints_to_segments`: `for i in range(len(waypoints) - 1)`,
pair waypoint `i` with waypoint `i+1`. -/
def convertWaypointsToSegments (ref : ℚ) (ws : List Waypoint) :
    List (Pt4 × Pt4) :=
  (List.range (ws.length - 1)).map fun i =>
    (wpToPt4 ref (ws.getD i default), wpToPt4 ref (ws.getD (i + 1) default))

/-- A `conflict_data` dict.  `minDistSq` holds `results[2]` squared (the
source stores the Euclidean distance); the two timestamps are
`reference_time + timedelta(seconds=t)` on the rational time axis. -/
structure ConflictRecord where
  withDrone : String
  minDistSq : ℚ
  locationPrimary : Vec3
  locationOther : Vec3
  timestampPrimary : ℚ
  timestampOther : ℚ
  timeDifference : ℚ
  spatialConflict : Bool
  temporalConflict : Bool
  conflictType : String
  primarySegment : ℕ
  otherSegment : ℕ
deriving DecidableEq, Repr

/-- The body of the double loop of `check_spatial_conflicts` for one
`(primary segment, other segment)` pair: run the solver and the classifier
and produce the appended record, or nothing when the level is zero. -/
def pairRecords (sa : SpatialAnalyzer) (referenceTime : ℚ)
    (otherDroneId : String) (pseg oseg : Pt4 × Pt4) (i j : ℕ) :
    List ConflictRecord :=
  let results := closestPointsOnSegmentsIn3D pseg.1 pseg.2 oseg.1 oseg.2
  let res := checkForConflictsSq sa results
  if 0 < res.1 then
    match res.2 with
    | some (closestP, closestQ, t1, t2) =>
      [{ withDrone := otherDroneId
         minDistSq := results.dsq
         locationPrimary := closestP
         locationOther := closestQ
         timestampPrimary := referenceTime + t1
         timestampOther := referenceTime + t2
         timeDifference := |t2 - t1|
         spatialConflict := true
         temporalConflict := ¬(res.1 = 1)
         conflictType := if res.1 = 1 then "SPATIAL" else "SPATIOTEMPORAL"
         primarySegment := i
         otherSegment := j }]
    | none => []
  else []

/-- `check_spatial_conflicts(primary_waypoints, other_waypoints,
other_drone_id)`: reference time is `min` over every timestamp of the two
paths (`min([])` raises, hence `none`); both paths become segment lists; the
two `enumerate` loops run the solver+classifier on every pair and append the
non-zero-level records in encounter order. -/
def checkSpatialConflicts (sa : SpatialAnalyzer)
    (primaryWaypoints otherWaypoints : List Waypoint)
    (otherDroneId : String) : Option (List ConflictRecord) :=
  match ((primaryWaypoints ++ otherWaypoints).map (·.timestamp)) with
  | [] => none
  | t0 :: ts =>
    let referenceTime := ts.foldl min t0
    let primarySegments := convertWaypointsToSegments referenceTime primaryWaypoints
    let otherSegments := convertWaypointsToSegments referenceTime otherWaypoints
    some <| primarySegments.enum.flatMap fun ip =>
      otherSegments.enum.flatMap fun jo =>
        pairRecords sa referenceTime otherDroneId ip.2 jo.2 ip.1 jo.1

/-- One entry of `flight_data['flights']`. -/
structure Flight where
  droneId : String
  waypoints : List Waypoint
deriving DecidableEq, Repr

/-- `detect_all_conflicts(primary_path, flight_data)`: for each other drone in
input order, extend the running list with that drone's spatial conflicts; an
exception inside any comparison aborts the whole call (`none`). -/
def detectAllConflicts (sa : SpatialAnalyzer)
    (primaryWaypoints : List Waypoint) : List Flight →
    Option (List ConflictRecord)
  | [] => some []
  | drone :: rest => do
    let cs ← checkSpatialConflicts sa primaryWaypoints drone.waypoints
      drone.droneId
    let later ← detectAllConflicts sa primaryWaypoints rest
    pure (cs ++ later)

/-- A raw JSON waypoint dict: each of the four required fields is present
(`some`) or missing (`none`). -/
structure RawWaypoint where
  x : Option ℚ
  y : Option ℚ
  z : Option ℚ
  timestamp : Option ℚ
deriving DecidableEq, Repr

/-- `validate_waypoint_data(waypoints)`: every waypoint carries all of
`x`, `y`, `z`, `timestamp`. -/
def validateWaypointData (ws : List RawWaypoint) : Bool :=
  ws.all fun w =>
    w.x.isSome && w.y.isSome && w.z.isSome && w.timestamp.isSome

/-- Read the fields out of a raw waypoint (only meaningful once
`validate_waypoint_data` has succeeded, as in the source's happy path). -/
def extractWaypoint (w : RawWaypoint) : Waypoint :=
  ⟨w.x.getD 0, w.y.getD 0, w.z.getD 0, w.timestamp.getD 0⟩

/-- The decision core of `analyze_flight_data`: validate the primary drone's
waypoints and return early (outer `none`, no analysis) when validation fails,
otherwise run `detect_all_conflicts` (whose own exception is the inner
`none`).  Loading, printing and plotting are I/O glue outside the model. -/
def analyzeFlightData (sa : SpatialAnalyzer) (flights : List Flight)
    (primaryRaw : List RawWaypoint) : Option (Option (List ConflictRecord)) :=
  if validateWaypointData primaryRaw then
    some (detectAllConflicts sa (primaryRaw.map extractWaypoint) flights)
  else none

/-- Division as Python evaluates it: raise (`none`) on a zero divisor. -/
def checkedDiv (x y : ℚ) : Option ℚ :=
  if y = 0 then none else some (x / y)

/-- `point_to_seg_closest` with every division checked. -/
def pointToSegClosestChecked (A B X : Vec3) (eps : ℚ) :
    Option (Vec3 × ℚ) :=
  let AB := sub B A
  match (if dot AB AB > eps then checkedDiv (dot (sub X A) AB) (dot AB AB)
         else some 0) with
  | none => none
  | some t =>
    let tc := clamp t
    some (add A (scale AB tc), tc)

/-- `lineParams` with every division checked. -/
def lineParamsChecked (A1 A2 B1 B2 : Pt4) (eps : ℚ) : Option (ℚ × ℚ) :=
  let u := sub A2.pos A1.pos
  let v := sub B2.pos B1.pos
  let w := sub B1.pos A1.pos
  let a := dot u u
  let b := dot u v
  let c := dot v v
  let d := dot u w
  let e := dot v w
  let D := -(a * c) + b * b
  match (if |D| > eps then checkedDiv (b * e - c * d) D else some 0),
      (if |D| > eps then checkedDiv (a * e - b * d) D
       else if c > eps then checkedDiv e c else some 0) with
  | some s, some t => some (s, t)
  | _, _ => none

/-- `closest_points_on_segments_in_3D` with every division checked: the same
computation as `closestPointsOnSegmentsIn3D`, raising (`none`) whenever a
divisor is zero, so that totality of the solver is a theorem rather than an
artefact of the total rational division of the model. -/
def closestPointsOnSegmentsIn3DChecked (A1 A2 B1 B2 : Pt4)
    (eps : ℚ := defaultEps) : Option SegResult :=
  let P1 := A1.pos
  let P2 := A2.pos
  let Q1 := B1.pos
  let Q2 := B2.pos
  let tp1 := A1.t
  let tp2 := A2.t
  let tq1 := B1.t
  let tq2 := B2.t
  let u := sub P2 P1
  let v := sub Q2 Q1
  match lineParamsChecked A1 A2 B1 B2 eps with
  | none => none
  | some st =>
    let s := st.1
    let t := st.2
    let sc := clamp s
    let tc := clamp t
    let Pc := add P1 (scale u sc)
    let Qc := add Q1 (scale v tc)
    if 0 ≤ s ∧ s ≤ 1 ∧ 0 ≤ t ∧ t ≤ 1 then
      let ts := timeCalculations tp1 tp2 sc tq1 tq2 tc
      some ⟨Pc, Qc, normSq (sub Pc Qc), ts.1, ts.2⟩
    else
      match pointToSegClosestChecked Q1 Q2 P1 eps,
          pointToSegClosestChecked Q1 Q2 P2 eps,
          pointToSegClosestChecked P1 P2 Q1 eps,
          pointToSegClosestChecked P1 P2 Q2 eps with
      | some pr1, some pr2, some pr3, some pr4 =>
        let c1 : Cand := ⟨P1, 0, pr1.1, pr1.2, normSq (sub P1 pr1.1)⟩
        let c2 : Cand := ⟨P2, 1, pr2.1, pr2.2, normSq (sub P2 pr2.1)⟩
        let c3 : Cand := ⟨pr3.1, pr3.2, Q1, 0, normSq (sub pr3.1 Q1)⟩
        let c4 : Cand := ⟨pr4.1, pr4.2, Q2, 1, normSq (sub pr4.1 Q2)⟩
        let best := pickBest (pickBest (pickBest c1 c2) c3) c4
        let ts := timeCalculations tp1 tp2 best.sp tq1 tq2 best.tp
        some ⟨best.cp, best.cq, best.dsq, ts.1, ts.2⟩
      | _, _, _, _ => none

/-- The squared distance between the point at parameter `s` on segment
`A1–A2` and the point at parameter `t` on segment `B1–B2`: the objective the
solver is specified to minimise over `s, t ∈ [0,1]`. -/
def pairDistSq (A1 A2 B1 B2 : Pt4) (s t : ℚ) : ℚ :=
  normSq (sub (add A1.pos (scale (sub A2.pos A1.pos) s))
              (add B1.pos (scale (sub B2.pos B1.pos) t)))

/-! ## Basic lemmas -/

theorem ltSqrt_iff_sqrt_lt (dsq thr : ℚ) :
    ltSqrt dsq thr ↔ Real.sqrt (dsq : ℝ) < (thr : ℝ) := by
  unfold ltSqrt
  constructor
  · rintro ⟨hthr, hlt⟩
    have hthr' : (0 : ℝ) < (thr : ℝ) := by exact_mod_cast hthr
    rw [Real.sqrt_lt' hthr']
    exact_mod_cast hlt
  · intro hlt
    have h0 : (0 : ℝ) ≤ Real.sqrt (dsq : ℝ) := Real.sqrt_nonneg _
    have hthr' : (0 : ℝ) < (thr : ℝ) := lt_of_le_of_lt h0 hlt
    refine ⟨by exact_mod_cast hthr', ?_⟩
    rw [Real.sqrt_lt' hthr'] at hlt
    exact_mod_cast hlt

theorem clamp_mem (x : ℚ) : 0 ≤ clamp x ∧ clamp x ≤ 1 := by
  unfold clamp
  constructor
  · exact le_max_left 0 _
  · rcases le_total x 1 with h | h <;> simp [min_eq_left, min_eq_right, h]

theorem clamp_of_mem {x : ℚ} (h0 : 0 ≤ x) (h1 : x ≤ 1) : clamp x = x := by
  unfold clamp
  rw [min_eq_left h1, max_eq_right h0]

theorem point_param_zero (P u : Vec3) : add P (scale u 0) = P := by
  cases P; cases u; simp [add, scale]

theorem point_param_one (P Q : Vec3) : add P (scale (sub Q P) 1) = Q := by
  cases P; cases Q; simp [add, scale, sub]

theorem pointToSegClosest_fst (A B X : Vec3) (eps : ℚ) :
    (pointToSegClosest A B X eps).1 =
      add A (scale (sub B A) (pointToSegClosest A B X eps).2) := rfl

theorem pointToSegClosest_snd_mem (A B X : Vec3) (eps : ℚ) :
    0 ≤ (pointToSegClosest A B X eps).2 ∧
      (pointToSegClosest A B X eps).2 ≤ 1 :=
  clamp_mem _

/-- Invariant of a fallback candidate for the segment pair `A1–A2`, `B1–B2`:
its two points are the points of its two parameters, the parameters lie in
`[0,1]`, and its recorded squared distance is the squared distance of its two
points. -/
def CandOK (A1 A2 B1 B2 : Pt4) (k : Cand) : Prop :=
  0 ≤ k.sp ∧ k.sp ≤ 1 ∧ 0 ≤ k.tp ∧ k.tp ≤ 1 ∧
  k.cp = add A1.pos (scale (sub A2.pos A1.pos) k.sp) ∧
  k.cq = add B1.pos (scale (sub B2.pos B1.pos) k.tp) ∧
  k.dsq = normSq (sub k.cp k.cq)

theorem pickBest_candOK {A1 A2 B1 B2 : Pt4} {b c : Cand}
    (hb : CandOK A1 A2 B1 B2 b) (hc : CandOK A1 A2 B1 B2 c) :
    CandOK A1 A2 B1 B2 (pickBest b c) := by
  unfold pickBest
  split_ifs <;> assumption

theorem candOK_c1 (A1 A2 B1 B2 : Pt4) (eps : ℚ) :
    CandOK A1 A2 B1 B2
      ⟨A1.pos, 0, (pointToSegClosest B1.pos B2.pos A1.pos eps).1,
        (pointToSegClosest B1.pos B2.pos A1.pos eps).2,
        normSq (sub A1.pos (pointToSegClosest B1.pos B2.pos A1.pos eps).1)⟩ := by
  refine ⟨le_refl 0, zero_le_one, (pointToSegClosest_snd_mem _ _ _ _).1,
    (pointToSegClosest_snd_mem _ _ _ _).2, ?_, ?_, rfl⟩
  · exact (point_param_zero _ _).symm
  · exact pointToSegClosest_fst _ _ _ _

theorem candOK_c2 (A1 A2 B1 B2 : Pt4) (eps : ℚ) :
    CandOK A1 A2 B1 B2
      ⟨A2.pos, 1, (pointToSegClosest B1.pos B2.pos A2.pos eps).1,
        (pointToSegClosest B1.pos B2.pos A2.pos eps).2,
        normSq (sub A2.pos (pointToSegClosest B1.pos B2.pos A2.pos eps).1)⟩ := by
  refine ⟨zero_le_one, le_refl 1, (pointToSegClosest_snd_mem _ _ _ _).1,
    (pointToSegClosest_snd_mem _ _ _ _).2, ?_, ?_, rfl⟩
  · exact (point_param_one _ _).symm
  · exact pointToSegClosest_fst _ _ _ _

theorem candOK_c3 (A1 A2 B1 B2 : Pt4) (eps : ℚ) :
    CandOK A1 A2 B1 B2
      ⟨(pointToSegClosest A1.pos A2.pos B1.pos eps).1,
        (pointToSegClosest A1.pos A2.pos B1.pos eps).2, B1.pos, 0,
        normSq (sub (pointToSegClosest A1.pos A2.pos B1.pos eps).1 B1.pos)⟩ := by
  refine ⟨(pointToSegClosest_snd_mem _ _ _ _).1,
    (pointToSegClosest_snd_mem _ _ _ _).2, le_refl 0, zero_le_one,
    ?_, ?_, rfl⟩
  · exact pointToSegClosest_fst _ _ _ _
  · exact (point_param_zero _ _).symm

theorem candOK_c4 (A1 A2 B1 B2 : Pt4) (eps : ℚ) :
    CandOK A1 A2 B1 B2
      ⟨(pointToSegClosest A1.pos A2.pos B2.pos eps).1,
        (pointToSegClosest A1.pos A2.pos B2.pos eps).2, B2.pos, 1,
        normSq (sub (pointToSegClosest A1.pos A2.pos B2.pos eps).1 B2.pos)⟩ := by
  refine ⟨(pointToSegClosest_snd_mem _ _ _ _).1,
    (pointToSegClosest_snd_mem _ _ _ _).2, zero_le_one, le_refl 1,
    ?_, ?_, rfl⟩
  · exact pointToSegClosest_fst _ _ _ _
  · exact (point_param_one _ _).symm

/-- Structural property of the solver shared by every branch: the returned
points are the points at some parameters `σ, τ ∈ [0,1]` of their own segments,
the returned squared distance is the squared distance of the two returned
points, and the returned times are the time-mapped parameters. -/
theorem solver_on_segments (A1 A2 B1 B2 : Pt4) (eps : ℚ) :
    ∃ σ τ : ℚ, 0 ≤ σ ∧ σ ≤ 1 ∧ 0 ≤ τ ∧ τ ≤ 1 ∧
      (closestPointsOnSegmentsIn3D A1 A2 B1 B2 eps).cp =
        add A1.pos (scale (sub A2.pos A1.pos) σ) ∧
      (closestPointsOnSegmentsIn3D A1 A2 B1 B2 eps).cq =
        add B1.pos (scale (sub B2.pos B1.pos) τ) ∧
      (closestPointsOnSegmentsIn3D A1 A2 B1 B2 eps).dsq =
        normSq (sub (closestPointsOnSegmentsIn3D A1 A2 B1 B2 eps).cp
          (closestPointsOnSegmentsIn3D A1 A2 B1 B2 eps).cq) ∧
      (closestPointsOnSegmentsIn3D A1 A2 B1 B2 eps).t1 =
        (A2.t - A1.t) * σ + A1.t ∧
      (closestPointsOnSegmentsIn3D A1 A2 B1 B2 eps).t2 =
        (B2.t - B1.t) * τ + B1.t := by
  simp only [closestPointsOnSegmentsIn3D]
  split_ifs with hin
  · refine ⟨_, _, (clamp_mem _).1, (clamp_mem _).2, (clamp_mem _).1,
      (clamp_mem _).2, rfl, rfl, rfl, rfl, rfl⟩
  · have hbest := pickBest_candOK (pickBest_candOK (pickBest_candOK
      (candOK_c1 A1 A2 B1 B2 eps) (candOK_c2 A1 A2 B1 B2 eps))
      (candOK_c3 A1 A2 B1 B2 eps)) (candOK_c4 A1 A2 B1 B2 eps)
    obtain ⟨hs0, hs1, ht0, ht1, hcp, hcq, hdsq⟩ := hbest
    exact ⟨_, _, hs0, hs1, ht0, ht1, hcp, hcq, hdsq, rfl, rfl⟩

theorem interp_between {ta tb σ : ℚ} (h0 : 0 ≤ σ) (h1 : σ ≤ 1) :
    min ta tb ≤ (tb - ta) * σ + ta ∧ (tb - ta) * σ + ta ≤ max ta tb := by
  rcases le_total ta tb with h | h
  · rw [min_eq_left h, max_eq_right h]
    constructor <;> nlinarith
  · rw [min_eq_right h, max_eq_left h]
    constructor <;> nlinarith

/-! ## C4: containment of the returned points and times -/

/-- C4: for every input (any epsilon, any degeneracy), the two returned
closest points lie on their own finite segments: each is its segment's start
point plus a parameter in `[0,1]` times the segment direction, the parameters
actually used (including after the endpoint fallback) are in `[0,1]`, and
consequently each mapped time lies between that segment's start and end
times. -/
theorem solver_points_on_finite_segments (A1 A2 B1 B2 : Pt4) (eps : ℚ) :
    ∃ σ τ : ℚ, 0 ≤ σ ∧ σ ≤ 1 ∧ 0 ≤ τ ∧ τ ≤ 1 ∧
      (closestPointsOnSegmentsIn3D A1 A2 B1 B2 eps).cp =
        add A1.pos (scale (sub A2.pos A1.pos) σ) ∧
      (closestPointsOnSegmentsIn3D A1 A2 B1 B2 eps).cq =
        add B1.pos (scale (sub B2.pos B1.pos) τ) ∧
      (closestPointsOnSegmentsIn3D A1 A2 B1 B2 eps).t1 =
        (A2.t - A1.t) * σ + A1.t ∧
      (closestPointsOnSegmentsIn3D A1 A2 B1 B2 eps).t2 =
        (B2.t - B1.t) * τ + B1.t ∧
      min A1.t A2.t ≤ (closestPointsOnSegmentsIn3D A1 A2 B1 B2 eps).t1 ∧
      (closestPointsOnSegmentsIn3D A1 A2 B1 B2 eps).t1 ≤ max A1.t A2.t ∧
      min B1.t B2.t ≤ (closestPointsOnSegmentsIn3D A1 A2 B1 B2 eps).t2 ∧
      (closestPointsOnSegmentsIn3D A1 A2 B1 B2 eps).t2 ≤ max B1.t B2.t := by
  obtain ⟨σ, τ, hs0, hs1, ht0, ht1, hcp, hcq, _, hT1, hT2⟩ :=
    solver_on_segments A1 A2 B1 B2 eps
  refine ⟨σ, τ, hs0, hs1, ht0, ht1, hcp, hcq, hT1, hT2, ?_, ?_, ?_, ?_⟩
  · rw [hT1]; exact (interp_between hs0 hs1).1
  · rw [hT1]; exact (interp_between hs0 hs1).2
  · rw [hT2]; exact (interp_between ht0 ht1).1
  · rw [hT2]; exact (interp_between ht0 ht1).2

/-! ## C6: the endpoint-fallback candidate selection -/

/-- Shared fallback-branch characterisation: when the unclamped parameters
fail the unit-square test, the solver's result is the first-found
minimum-distance candidate of the fixed sequence `P1`-vs-`Q`, `P2`-vs-`Q`,
`Q1`-vs-`P`, `Q2`-vs-`P`. -/
theorem solver_fallback_cases (A1 A2 B1 B2 : Pt4) (eps : ℚ)
    (hout : ¬(0 ≤ (lineParams A1 A2 B1 B2 eps).1 ∧
      (lineParams A1 A2 B1 B2 eps).1 ≤ 1 ∧
      0 ≤ (lineParams A1 A2 B1 B2 eps).2 ∧
      (lineParams A1 A2 B1 B2 eps).2 ≤ 1)) :
    let c1 : Cand := ⟨A1.pos, 0, (pointToSegClosest B1.pos B2.pos A1.pos eps).1,
      (pointToSegClosest B1.pos B2.pos A1.pos eps).2,
      normSq (sub A1.pos (pointToSegClosest B1.pos B2.pos A1.pos eps).1)⟩
    let c2 : Cand := ⟨A2.pos, 1, (pointToSegClosest B1.pos B2.pos A2.pos eps).1,
      (pointToSegClosest B1.pos B2.pos A2.pos eps).2,
      normSq (sub A2.pos (pointToSegClosest B1.pos B2.pos A2.pos eps).1)⟩
    let c3 : Cand := ⟨(pointToSegClosest A1.pos A2.pos B1.pos eps).1,
      (pointToSegClosest A1.pos A2.pos B1.pos eps).2, B1.pos, 0,
      normSq (sub (pointToSegClosest A1.pos A2.pos B1.pos eps).1 B1.pos)⟩
    let c4 : Cand := ⟨(pointToSegClosest A1.pos A2.pos B2.pos eps).1,
      (pointToSegClosest A1.pos A2.pos B2.pos eps).2, B2.pos, 1,
      normSq (sub (pointToSegClosest A1.pos A2.pos B2.pos eps).1 B2.pos)⟩
    let mk : Cand → SegResult := fun k =>
      ⟨k.cp, k.cq, k.dsq, (timeCalculations A1.t A2.t k.sp B1.t B2.t k.tp).1,
        (timeCalculations A1.t A2.t k.sp B1.t B2.t k.tp).2⟩
    (closestPointsOnSegmentsIn3D A1 A2 B1 B2 eps = mk c1 ∧
      c1.dsq ≤ c2.dsq ∧ c1.dsq ≤ c3.dsq ∧ c1.dsq ≤ c4.dsq) ∨
    (closestPointsOnSegmentsIn3D A1 A2 B1 B2 eps = mk c2 ∧
      c2.dsq < c1.dsq ∧ c2.dsq ≤ c3.dsq ∧ c2.dsq ≤ c4.dsq) ∨
    (closestPointsOnSegmentsIn3D A1 A2 B1 B2 eps = mk c3 ∧
      c3.dsq < c1.dsq ∧ c3.dsq < c2.dsq ∧ c3.dsq ≤ c4.dsq) ∨
    (closestPointsOnSegmentsIn3D A1 A2 B1 B2 eps = mk c4 ∧
      c4.dsq < c1.dsq ∧ c4.dsq < c2.dsq ∧ c4.dsq < c3.dsq) := by
  intro c1 c2 c3 c4 mk
  simp only [closestPointsOnSegmentsIn3D]
  rw [if_neg hout]
  simp only [pickBest]
  split_ifs with h1 h2 h3 h4 h5 h6 h7
  · exact Or.inr (Or.inr (Or.inr
      ⟨rfl, (h3.trans h2).trans h1, h3.trans h2, h3⟩))
  · exact Or.inr (Or.inr (Or.inl
      ⟨rfl, h2.trans h1, h2, not_lt.mp h3⟩))
  · exact Or.inr (Or.inr (Or.inr
      ⟨rfl, h4.trans h1, h4, lt_of_lt_of_le h4 (not_lt.mp h2)⟩))
  · exact Or.inr (Or.inl ⟨rfl, h1, not_lt.mp h2, not_lt.mp h4⟩)
  · exact Or.inr (Or.inr (Or.inr
      ⟨rfl, h6.trans h5, lt_of_lt_of_le (h6.trans h5) (not_lt.mp h1), h6⟩))
  · exact Or.inr (Or.inr (Or.inl
      ⟨rfl, h5, lt_of_lt_of_le h5 (not_lt.mp h1), not_lt.mp h6⟩))
  · exact Or.inr (Or.inr (Or.inr
      ⟨rfl, h7, lt_of_lt_of_le h7 (not_lt.mp h1),
        lt_of_lt_of_le h7 (not_lt.mp h5)⟩))
  · exact Or.inl ⟨rfl, not_lt.mp h1, not_lt.mp h5, not_lt.mp h7⟩

/-- C6: whenever the unclamped line parameters do not both lie in `[0,1]`,
the solver returns the minimum-distance pair among exactly the four endpoint
candidates — `P1` projected onto segment `Q`, `P2` onto segment `Q`, `Q1`
onto segment `P`, `Q2` onto segment `P`, each projection clamped to `[0,1]` —
evaluated in that fixed order, with ties broken in favour of the first-found
candidate (a later candidate wins only by a strictly smaller distance). -/
theorem solver_fallback_selects_best_of_four (A1 A2 B1 B2 : Pt4) (eps : ℚ)
    (hout : ¬(0 ≤ (lineParams A1 A2 B1 B2 eps).1 ∧
      (lineParams A1 A2 B1 B2 eps).1 ≤ 1 ∧
      0 ≤ (lineParams A1 A2 B1 B2 eps).2 ∧
      (lineParams A1 A2 B1 B2 eps).2 ≤ 1)) :
    let c1 : Cand := ⟨A1.pos, 0, (pointToSegClosest B1.pos B2.pos A1.pos eps).1,
      (pointToSegClosest B1.pos B2.pos A1.pos eps).2,
      normSq (sub A1.pos (pointToSegClosest B1.pos B2.pos A1.pos eps).1)⟩
    let c2 : Cand := ⟨A2.pos, 1, (pointToSegClosest B1.pos B2.pos A2.pos eps).1,
      (pointToSegClosest B1.pos B2.pos A2.pos eps).2,
      normSq (sub A2.pos (pointToSegClosest B1.pos B2.pos A2.pos eps).1)⟩
    let c3 : Cand := ⟨(pointToSegClosest A1.pos A2.pos B1.pos eps).1,
      (pointToSegClosest A1.pos A2.pos B1.pos eps).2, B1.pos, 0,
      normSq (sub (pointToSegClosest A1.pos A2.pos B1.pos eps).1 B1.pos)⟩
    let c4 : Cand := ⟨(pointToSegClosest A1.pos A2.pos B2.pos eps).1,
      (pointToSegClosest A1.pos A2.pos B2.pos eps).2, B2.pos, 1,
      normSq (sub (pointToSegClosest A1.pos A2.pos B2.pos eps).1 B2.pos)⟩
    let mk : Cand → SegResult := fun k =>
      ⟨k.cp, k.cq, k.dsq, (timeCalculations A1.t A2.t k.sp B1.t B2.t k.tp).1,
        (timeCalculations A1.t A2.t k.sp B1.t B2.t k.tp).2⟩
    (closestPointsOnSegmentsIn3D A1 A2 B1 B2 eps = mk c1 ∧
      c1.dsq ≤ c2.dsq ∧ c1.dsq ≤ c3.dsq ∧ c1.dsq ≤ c4.dsq) ∨
    (closestPointsOnSegmentsIn3D A1 A2 B1 B2 eps = mk c2 ∧
      c2.dsq < c1.dsq ∧ c2.dsq ≤ c3.dsq ∧ c2.dsq ≤ c4.dsq) ∨
    (closestPointsOnSegmentsIn3D A1 A2 B1 B2 eps = mk c3 ∧
      c3.dsq < c1.dsq ∧ c3.dsq < c2.dsq ∧ c3.dsq ≤ c4.dsq) ∨
    (closestPointsOnSegmentsIn3D A1 A2 B1 B2 eps = mk c4 ∧
      c4.dsq < c1.dsq ∧ c4.dsq < c2.dsq ∧ c4.dsq < c3.dsq) :=
  solver_fallback_cases A1 A2 B1 B2 eps hout

/-! ## C8: totality of the solver, every division guarded -/

theorem checkedDiv_of_abs_guard {x y eps : ℚ} (heps : 0 ≤ eps)
    (hy : eps < |y|) : checkedDiv x y = some (x / y) := by
  unfold checkedDiv
  rw [if_neg]
  intro h
  rw [h] at hy
  simp at hy
  linarith

theorem checkedDiv_of_pos_guard {x y eps : ℚ} (heps : 0 ≤ eps)
    (hy : eps < y) : checkedDiv x y = some (x / y) := by
  unfold checkedDiv
  rw [if_neg]
  intro h
  rw [h] at hy
  linarith

theorem lineParamsChecked_eq (A1 A2 B1 B2 : Pt4) (eps : ℚ) (heps : 0 ≤ eps) :
    lineParamsChecked A1 A2 B1 B2 eps =
      some (lineParams A1 A2 B1 B2 eps) := by
  simp only [lineParamsChecked, lineParams]
  by_cases hD : |-(dot (sub A2.pos A1.pos) (sub A2.pos A1.pos) *
      dot (sub B2.pos B1.pos) (sub B2.pos B1.pos)) +
      dot (sub A2.pos A1.pos) (sub B2.pos B1.pos) *
      dot (sub A2.pos A1.pos) (sub B2.pos B1.pos)| > eps
  · rw [if_pos hD, if_pos hD, if_pos hD, checkedDiv_of_abs_guard heps hD,
      checkedDiv_of_abs_guard heps hD]
  · rw [if_neg hD, if_neg hD, if_neg hD]
    by_cases hc : dot (sub B2.pos B1.pos) (sub B2.pos B1.pos) > eps
    · rw [if_pos hc, if_pos hc, checkedDiv_of_pos_guard heps hc]
    · rw [if_neg hc, if_neg hc]

theorem pointToSegClosestChecked_eq (A B X : Vec3) (eps : ℚ)
    (heps : 0 ≤ eps) :
    pointToSegClosestChecked A B X eps =
      some (pointToSegClosest A B X eps) := by
  simp only [pointToSegClosestChecked, pointToSegClosest]
  by_cases hg : dot (sub B A) (sub B A) > eps
  · rw [if_pos hg, if_pos hg, checkedDiv_of_pos_guard heps hg]
  · rw [if_neg hg, if_neg hg]

/-- C8: the solver is total on all inputs, including zero-length and
(near-)parallel segments: with a nonnegative epsilon (the default is `1e-12`),
every division in it is performed under a guard that makes the divisor
nonzero (`|D| > eps` for the 2×2 solve, `c > eps` for the parallel branch,
`dot(AB, AB) > eps` for the projections), so the exception-raising variant
never raises and agrees with the total model everywhere. -/
theorem solver_total_never_divides_by_zero (A1 A2 B1 B2 : Pt4) (eps : ℚ)
    (heps : 0 ≤ eps) :
    closestPointsOnSegmentsIn3DChecked A1 A2 B1 B2 eps =
      some (closestPointsOnSegmentsIn3D A1 A2 B1 B2 eps) := by
  simp only [closestPointsOnSegmentsIn3DChecked, closestPointsOnSegmentsIn3D]
  rw [lineParamsChecked_eq A1 A2 B1 B2 eps heps,
    pointToSegClosestChecked_eq B1.pos B2.pos A1.pos eps heps,
    pointToSegClosestChecked_eq B1.pos B2.pos A2.pos eps heps,
    pointToSegClosestChecked_eq A1.pos A2.pos B1.pos eps heps,
    pointToSegClosestChecked_eq A1.pos A2.pos B2.pos eps heps]
  dsimp only
  split_ifs <;> rfl

/-- C8 witness at a degenerate input (both segments are points). -/
theorem solver_total_never_divides_by_zero_witness :
    (0 : ℚ) ≤ defaultEps ∧
    closestPointsOnSegmentsIn3DChecked ⟨0, 0, 0, 0⟩ ⟨0, 0, 0, 1⟩
        ⟨0, 1, 0, 0⟩ ⟨0, 1, 0, 1⟩ defaultEps =
      some (closestPointsOnSegmentsIn3D ⟨0, 0, 0, 0⟩ ⟨0, 0, 0, 1⟩
        ⟨0, 1, 0, 0⟩ ⟨0, 1, 0, 1⟩ defaultEps) :=
  ⟨by norm_num [defaultEps],
    solver_total_never_divides_by_zero _ _ _ _ _ (by norm_num [defaultEps])⟩

/-! ## C2: the conflict classifier -/

/-- C2: for every closest-point result with distance `d` and times `t1`, `t2`,
`check_for_conflicts` returns level 0 iff `d ≥ safety_threshold`, level 1 iff
`d < safety_threshold` and `|t2 - t1| ≥ safety_time`, and level 2 iff
`d < safety_threshold` and `|t2 - t1| < safety_time`, where `safety_threshold`
is three times the configured drone radius; both comparisons are strict on the
unsafe side, so `d = safety_threshold` gives level 0 and
`|t2 - t1| = safety_time` gives level 1, never level 2. -/
theorem checkForConflicts_level_characterisation
    (sa : SpatialAnalyzer) (cp cq : Vec3) (d t1 t2 : ℚ) :
    ((checkForConflicts sa cp cq d t1 t2).1 = 0 ↔ sa.safetyThreshold ≤ d) ∧
    ((checkForConflicts sa cp cq d t1 t2).1 = 1 ↔
      d < sa.safetyThreshold ∧ sa.safetyTime ≤ |t2 - t1|) ∧
    ((checkForConflicts sa cp cq d t1 t2).1 = 2 ↔
      d < sa.safetyThreshold ∧ |t2 - t1| < sa.safetyTime) ∧
    sa.safetyThreshold = 3 * sa.droneRadius ∧
    (d = sa.safetyThreshold → (checkForConflicts sa cp cq d t1 t2).1 = 0) ∧
    (|t2 - t1| = sa.safetyTime → d < sa.safetyThreshold →
      (checkForConflicts sa cp cq d t1 t2).1 = 1) := by
  have hfst : ∀ (n : ℕ) (p : Option (Vec3 × Vec3 × ℚ × ℚ)),
      ((if 0 < n then (n, p) else (n, none)) :
        ℕ × Option (Vec3 × Vec3 × ℚ × ℚ)).1 = n := by
    intro n p; split <;> rfl
  simp only [checkForConflicts]
  simp only [hfst]
  split_ifs with h1 h2
  · exact ⟨⟨fun h => absurd h (by decide), fun h => absurd h1 (not_lt.mpr h)⟩,
      ⟨fun h => absurd h (by decide), fun h => absurd h2 (not_lt.mpr h.2)⟩,
      ⟨fun _ => ⟨h1, h2⟩, fun _ => rfl⟩,
      by unfold SpatialAnalyzer.safetyThreshold; ring,
      fun hEq => absurd (hEq ▸ h1) (lt_irrefl _),
      fun hEq _ => absurd (hEq ▸ h2) (lt_irrefl _)⟩
  · exact ⟨⟨fun h => absurd h (by decide), fun h => absurd h1 (not_lt.mpr h)⟩,
      ⟨fun _ => ⟨h1, not_lt.mp h2⟩, fun _ => rfl⟩,
      ⟨fun h => absurd h (by decide), fun h => absurd h.2 h2⟩,
      by unfold SpatialAnalyzer.safetyThreshold; ring,
      fun hEq => absurd (hEq ▸ h1) (lt_irrefl _),
      fun _ _ => rfl⟩
  · exact ⟨⟨fun _ => not_lt.mp h1, fun _ => rfl⟩,
      ⟨fun h => absurd h (by decide), fun h => absurd h.1 h1⟩,
      ⟨fun h => absurd h (by decide), fun h => absurd h.1 h1⟩,
      by unfold SpatialAnalyzer.safetyThreshold; ring,
      fun _ => rfl,
      fun _ hd => absurd hd h1⟩

/-! ## C5: input-contract validation -/

/-- C5 counterexample: the implementation does not reject a primary path with
zero waypoints (the validator vacuously accepts the empty list and the
analysis proceeds), and it does not reject non-increasing timestamps (two
waypoints with the same timestamp pass validation and are analysed). -/
theorem validation_misses_contract_violations :
    validateWaypointData [] = true ∧
    analyzeFlightData ⟨10, 2⟩ [] [] ≠ none ∧
    validateWaypointData
      [⟨some 0, some 0, some 0, some 5⟩, ⟨some 1, some 0, some 0, some 5⟩]
      = true ∧
    analyzeFlightData ⟨10, 2⟩ []
      [⟨some 0, some 0, some 0, some 5⟩, ⟨some 1, some 0, some 0, some 5⟩]
      ≠ none := by
  refine ⟨rfl, ?_, rfl, ?_⟩ <;> simp [analyzeFlightData, validateWaypointData]

/-- C5 (amended): the only input-contract check performed before analysis is
field presence on the primary path's waypoints: `analyze_flight_data` rejects
the input (returns before any analysis) exactly when some primary waypoint
lacks one of `x`, `y`, `z`, `timestamp`.  A primary path with zero waypoints
passes validation, and timestamp monotonicity is never checked. -/
theorem analyzeFlightData_rejects_iff_missing_field
    (sa : SpatialAnalyzer) (flights : List Flight)
    (praw : List RawWaypoint) :
    (analyzeFlightData sa flights praw = none ↔
      ∃ w ∈ praw, w.x = none ∨ w.y = none ∨ w.z = none ∨ w.timestamp = none) ∧
    validateWaypointData [] = true := by
  refine ⟨?_, rfl⟩
  unfold analyzeFlightData
  split_ifs with hv
  · simp only [validateWaypointData, List.all_eq_true, Bool.and_eq_true] at hv
    constructor
    · intro h; simp at h
    · rintro ⟨w, hw, hmiss⟩
      obtain ⟨⟨⟨hx, hy⟩, hz⟩, ht⟩ := hv w hw
      rcases hmiss with h | h | h | h <;>
        first
          | simp [h] at hx
          | simp [h] at hy
          | simp [h] at hz
          | simp [h] at ht
  · constructor
    · intro _
      simp only [validateWaypointData, List.all_eq_true, Bool.and_eq_true] at hv
      push_neg at hv
      obtain ⟨w, hw, hmiss⟩ := hv
      refine ⟨w, hw, ?_⟩
      by_contra hcon
      push_neg at hcon
      obtain ⟨hx, hy, hz, ht⟩ := hcon
      exact hmiss
        ⟨⟨Option.isSome_iff_ne_none.mpr hx, Option.isSome_iff_ne_none.mpr hy⟩,
          Option.isSome_iff_ne_none.mpr hz⟩ (Option.isSome_iff_ne_none.mpr ht)
    · intro _; rfl

/-! ## C9: empty comparison sets -/

/-- C9 counterexample: when both paths are empty, `check_spatial_conflicts`
raises (`min` of an empty timestamp list) instead of returning an empty
conflict list. -/
theorem checkSpatialConflicts_raises_on_two_empty_paths :
    checkSpatialConflicts ⟨10, 2⟩ [] [] "other" = none := rfl

/-- C9 (amended): provided the two paths contribute at least one timestamp
between them (the reference-time minimum exists), a path with fewer than two
waypoints yields zero segments and the comparison returns an empty conflict
list rather than failing; an empty set of other drones likewise yields zero
conflict records. -/
theorem checkSpatialConflicts_short_path_empty
    (sa : SpatialAnalyzer) (p o : List Waypoint) (id1 : String)
    (hne : p ++ o ≠ []) (hlt : p.length < 2 ∨ o.length < 2) :
    checkSpatialConflicts sa p o id1 = some [] ∧
    detectAllConflicts sa p [] = some [] := by
  have hseg : ∀ (r : ℚ) (ws : List Waypoint), ws.length < 2 →
      convertWaypointsToSegments r ws = [] := by
    intro r ws hws
    unfold convertWaypointsToSegments
    have : ws.length - 1 = 0 := by omega
    rw [this]
    rfl
  constructor
  · rcases hl : (p ++ o).map (·.timestamp) with _ | ⟨t0, ts⟩
    · exact absurd (List.map_eq_nil_iff.mp hl) hne
    · unfold checkSpatialConflicts
      rw [hl]
      rcases hlt with hp | hp
      · simp [hseg _ p hp]
      · simp [hseg _ o hp]
  · rfl

/-- C9 witness: a one-waypoint primary path against no waypoints at all. -/
theorem checkSpatialConflicts_short_path_empty_witness :
    checkSpatialConflicts ⟨10, 2⟩ [⟨0, 0, 0, 0⟩] [] "d" = some [] ∧
    detectAllConflicts ⟨10, 2⟩ [⟨0, 0, 0, 0⟩] [] = some [] :=
  checkSpatialConflicts_short_path_empty ⟨10, 2⟩ [⟨0, 0, 0, 0⟩] [] "d"
    (by simp) (Or.inl (by simp))

/-! ## Quadratic theory for the exact-minimum claims (C1, C7) -/

/-- The quadratic objective `|s·u − t·v − w|²` in scalar form. -/
def quadF (a b c d e k s t : ℚ) : ℚ :=
  a*s^2 - 2*b*s*t + c*t^2 - 2*d*s + 2*e*t + k

theorem crit_solves (a b c d e : ℚ) (hD : -(a*c) + b*b ≠ 0) :
    a * ((b*e - c*d) / (-(a*c) + b*b)) -
      b * ((a*e - b*d) / (-(a*c) + b*b)) = d ∧
    b * ((b*e - c*d) / (-(a*c) + b*b)) -
      c * ((a*e - b*d) / (-(a*c) + b*b)) = e := by
  constructor <;> field_simp <;> ring

theorem quad_shift (a b c d e k s0 t0 : ℚ)
    (hs : a*s0 - b*t0 = d) (ht : b*s0 - c*t0 = e) (s t : ℚ) :
    quadF a b c d e k s t = quadF a b c d e k s0 t0 +
      (a*(s - s0)^2 - 2*b*(s - s0)*(t - t0) + c*(t - t0)^2) := by
  rw [← hs, ← ht]
  unfold quadF
  ring

theorem quad_psd (a b c x y : ℚ) (hac : b^2 ≤ a*c) (ha : 0 ≤ a) (hc : 0 ≤ c) :
    0 ≤ a*x^2 - 2*b*x*y + c*y^2 := by
  rcases ha.eq_or_lt with h0 | hpos
  · have hb : b = 0 := by nlinarith [sq_nonneg b]
    subst hb
    nlinarith [sq_nonneg y]
  · nlinarith [sq_nonneg (a*x - b*y), mul_nonneg (sub_nonneg.mpr hac) (sq_nonneg y)]

theorem clamp_nearest (θ t : ℚ) (h0 : 0 ≤ t) (h1 : t ≤ 1) :
    (clamp θ - θ)^2 ≤ (t - θ)^2 := by
  unfold clamp
  rcases le_total θ 0 with hθ | hθ
  · rw [min_eq_left (hθ.trans zero_le_one), max_eq_left hθ]
    nlinarith
  · rcases le_total θ 1 with hθ1 | hθ1
    · rw [min_eq_left hθ1, max_eq_right hθ]
      nlinarith [sq_nonneg (t - θ)]
    · rw [min_eq_right hθ1, max_eq_right zero_le_one]
      nlinarith

theorem quad1d_clamp_min (A B C θ t : ℚ) (hA : 0 < A) (hθ : 2*A*θ = -B)
    (h0 : 0 ≤ t) (h1 : t ≤ 1) :
    A*(clamp θ)^2 + B*(clamp θ) + C ≤ A*t^2 + B*t + C := by
  have hkey := clamp_nearest θ t h0 h1
  have h2 := mul_le_mul_of_nonneg_left hkey hA.le
  have hiden : A*(clamp θ)^2 + B*(clamp θ) + C - (A*t^2 + B*t + C) =
      A*(clamp θ - θ)^2 - A*(t - θ)^2 := by
    linear_combination (clamp θ - t) * hθ
  linarith [h2, hiden]

theorem quad_ray_mono (a b c d e k s0 t0 s t lam : ℚ)
    (hs : a*s0 - b*t0 = d) (ht : b*s0 - c*t0 = e)
    (hac : b^2 ≤ a*c) (ha : 0 ≤ a) (hc : 0 ≤ c)
    (hl0 : 0 ≤ lam) (hl1 : lam ≤ 1) :
    quadF a b c d e k (s0 + lam*(s - s0)) (t0 + lam*(t - t0)) ≤
      quadF a b c d e k s t := by
  have h1 := quad_shift a b c d e k s0 t0 hs ht s t
  have h2 := quad_shift a b c d e k s0 t0 hs ht
    (s0 + lam*(s - s0)) (t0 + lam*(t - t0))
  have hQ : 0 ≤ a*(s - s0)^2 - 2*b*(s - s0)*(t - t0) + c*(t - t0)^2 :=
    quad_psd a b c (s - s0) (t - t0) hac ha hc
  have h3 : a*((s0 + lam*(s - s0)) - s0)^2
      - 2*b*((s0 + lam*(s - s0)) - s0)*((t0 + lam*(t - t0)) - t0)
      + c*((t0 + lam*(t - t0)) - t0)^2
      = lam^2 * (a*(s - s0)^2 - 2*b*(s - s0)*(t - t0) + c*(t - t0)^2) := by
    ring
  have hlam : lam^2 ≤ 1 := by nlinarith
  have h6 := mul_le_mul_of_nonneg_right hlam hQ
  rw [one_mul] at h6
  linarith [h1, h2, h3, h6]

def lamOf (x0 x : ℚ) : ℚ :=
  if x0 < 0 then (0 - x0) / (x - x0)
  else if 1 < x0 then (x0 - 1) / (x0 - x)
  else 0

theorem lamOf_of_mem {x0 : ℚ} (x : ℚ) (h : 0 ≤ x0 ∧ x0 ≤ 1) :
    lamOf x0 x = 0 := by
  unfold lamOf
  rw [if_neg (not_lt.mpr h.1), if_neg (not_lt.mpr h.2)]

theorem lamOf_spec (x0 x : ℚ) (h0 : 0 ≤ x) (h1 : x ≤ 1) :
    0 ≤ lamOf x0 x ∧ lamOf x0 x ≤ 1 ∧
    (∀ μ, lamOf x0 x ≤ μ → μ ≤ 1 →
      0 ≤ x0 + μ*(x - x0) ∧ x0 + μ*(x - x0) ≤ 1) ∧
    (¬(0 ≤ x0 ∧ x0 ≤ 1) →
      x0 + (lamOf x0 x)*(x - x0) = 0 ∨ x0 + (lamOf x0 x)*(x - x0) = 1) := by
  unfold lamOf
  split_ifs with hneg hbig
  · have hd : 0 < x - x0 := by linarith
    have hlam : (0 - x0) / (x - x0) * (x - x0) = -x0 := by
      field_simp
    refine ⟨div_nonneg (by linarith) hd.le, ?_, ?_, ?_⟩
    · rw [div_le_one hd]; linarith
    · intro μ hμ hμ1
      have hlow : (0 - x0) / (x - x0) * (x - x0) ≤ μ * (x - x0) :=
        mul_le_mul_of_nonneg_right hμ hd.le
      rw [hlam] at hlow
      constructor
      · linarith
      · nlinarith
    · intro _
      left
      have : x0 + (0 - x0) / (x - x0) * (x - x0) = x0 + -x0 := by rw [hlam]
      rw [this]; ring
  · have hd : 0 < x0 - x := by linarith
    have hlam : (x0 - 1) / (x0 - x) * (x - x0) = 1 - x0 := by
      field_simp
      ring
    refine ⟨div_nonneg (by linarith) hd.le, ?_, ?_, ?_⟩
    · rw [div_le_one hd]; linarith
    · intro μ hμ hμ1
      have hup : (x0 - 1) / (x0 - x) * (x0 - x) ≤ μ * (x0 - x) :=
        mul_le_mul_of_nonneg_right hμ hd.le
      have hval : (x0 - 1) / (x0 - x) * (x0 - x) = x0 - 1 := by
        field_simp
      rw [hval] at hup
      constructor
      · nlinarith
      · nlinarith
    · intro _
      right
      rw [hlam]; ring
  · push_neg at hneg hbig
    refine ⟨le_refl 0, zero_le_one, ?_, ?_⟩
    · intro μ hμ hμ1
      constructor
      · nlinarith
      · nlinarith
    · intro hcon
      exact absurd ⟨hneg, hbig⟩ hcon

theorem boxExit (s0 t0 s t : ℚ) (hs0 : 0 ≤ s) (hs1 : s ≤ 1)
    (ht0 : 0 ≤ t) (ht1 : t ≤ 1)
    (hout : ¬(0 ≤ s0 ∧ s0 ≤ 1 ∧ 0 ≤ t0 ∧ t0 ≤ 1)) :
    ∃ lam, 0 ≤ lam ∧ lam ≤ 1 ∧
      0 ≤ s0 + lam*(s - s0) ∧ s0 + lam*(s - s0) ≤ 1 ∧
      0 ≤ t0 + lam*(t - t0) ∧ t0 + lam*(t - t0) ≤ 1 ∧
      (s0 + lam*(s - s0) = 0 ∨ s0 + lam*(s - s0) = 1 ∨
       t0 + lam*(t - t0) = 0 ∨ t0 + lam*(t - t0) = 1) := by
  obtain ⟨hsa, hsb, hsc, hsd⟩ := lamOf_spec s0 s hs0 hs1
  obtain ⟨hta, htb, htc, htd⟩ := lamOf_spec t0 t ht0 ht1
  have hmb : max (lamOf s0 s) (lamOf t0 t) ≤ 1 := max_le hsb htb
  refine ⟨max (lamOf s0 s) (lamOf t0 t), le_trans hsa (le_max_left _ _), hmb,
    (hsc _ (le_max_left _ _) hmb).1, (hsc _ (le_max_left _ _) hmb).2,
    (htc _ (le_max_right _ _) hmb).1, (htc _ (le_max_right _ _) hmb).2, ?_⟩
  rcases le_total (lamOf t0 t) (lamOf s0 s) with hmax | hmax
  · rw [max_eq_left hmax]
    by_cases hs_in : 0 ≤ s0 ∧ s0 ≤ 1
    · have hz : lamOf s0 s = 0 := lamOf_of_mem s hs_in
      have ht_out : ¬(0 ≤ t0 ∧ t0 ≤ 1) := fun h =>
        hout ⟨hs_in.1, hs_in.2, h.1, h.2⟩
      have htz : lamOf t0 t = 0 := by
        rw [hz] at hmax
        exact le_antisymm hmax hta
      have hb := htd ht_out
      rw [htz] at hb
      rw [hz]
      rcases hb with h | h
      · exact Or.inr (Or.inr (Or.inl h))
      · exact Or.inr (Or.inr (Or.inr h))
    · rcases hsd hs_in with h | h
      · exact Or.inl h
      · exact Or.inr (Or.inl h)
  · rw [max_eq_right hmax]
    by_cases ht_in : 0 ≤ t0 ∧ t0 ≤ 1
    · have hz : lamOf t0 t = 0 := lamOf_of_mem t ht_in
      have hs_out : ¬(0 ≤ s0 ∧ s0 ≤ 1) := fun h =>
        hout ⟨h.1, h.2, ht_in.1, ht_in.2⟩
      have hsz : lamOf s0 s = 0 := by
        rw [hz] at hmax
        exact le_antisymm hmax hsa
      have hb := hsd hs_out
      rw [hsz] at hb
      rw [hz]
      rcases hb with h | h
      · exact Or.inl h
      · exact Or.inr (Or.inl h)
    · rcases htd ht_in with h | h
      · exact Or.inr (Or.inr (Or.inl h))
      · exact Or.inr (Or.inr (Or.inr h))

theorem quad_min_direct (a b c d e k s0 t0 : ℚ)
    (hac : b^2 ≤ a*c) (ha : 0 ≤ a) (hc : 0 ≤ c)
    (hs : a*s0 - b*t0 = d) (ht : b*s0 - c*t0 = e) (s t : ℚ) :
    quadF a b c d e k s0 t0 ≤ quadF a b c d e k s t := by
  have h1 := quad_shift a b c d e k s0 t0 hs ht s t
  have hQ := quad_psd a b c (s - s0) (t - t0) hac ha hc
  linarith

theorem quad_edge_s0 (a b c d e k : ℚ) (hc : 0 < c) (t : ℚ)
    (h0 : 0 ≤ t) (h1 : t ≤ 1) :
    quadF a b c d e k 0 (clamp (-e/c)) ≤ quadF a b c d e k 0 t := by
  have hform : ∀ x : ℚ, quadF a b c d e k 0 x = c*x^2 + (2*e)*x + k := by
    intro x; unfold quadF; ring
  rw [hform, hform]
  exact quad1d_clamp_min c (2*e) k (-e/c) t hc (by field_simp; ring) h0 h1

theorem quad_edge_s1 (a b c d e k : ℚ) (hc : 0 < c) (t : ℚ)
    (h0 : 0 ≤ t) (h1 : t ≤ 1) :
    quadF a b c d e k 1 (clamp ((b - e)/c)) ≤ quadF a b c d e k 1 t := by
  have hform : ∀ x : ℚ, quadF a b c d e k 1 x =
      c*x^2 + (2*e - 2*b)*x + (a - 2*d + k) := by
    intro x; unfold quadF; ring
  rw [hform, hform]
  refine quad1d_clamp_min c (2*e - 2*b) (a - 2*d + k) ((b - e)/c) t hc ?_ h0 h1
  field_simp
  ring

theorem quad_edge_t0 (a b c d e k : ℚ) (ha : 0 < a) (s : ℚ)
    (h0 : 0 ≤ s) (h1 : s ≤ 1) :
    quadF a b c d e k (clamp (d/a)) 0 ≤ quadF a b c d e k s 0 := by
  have hform : ∀ x : ℚ, quadF a b c d e k x 0 = a*x^2 + (-(2*d))*x + k := by
    intro x; unfold quadF; ring
  rw [hform, hform]
  refine quad1d_clamp_min a (-(2*d)) k (d/a) s ha ?_ h0 h1
  field_simp
  ring

theorem quad_edge_t1 (a b c d e k : ℚ) (ha : 0 < a) (s : ℚ)
    (h0 : 0 ≤ s) (h1 : s ≤ 1) :
    quadF a b c d e k (clamp ((b + d)/a)) 1 ≤ quadF a b c d e k s 1 := by
  have hform : ∀ x : ℚ, quadF a b c d e k x 1 =
      a*x^2 + (-(2*b) - 2*d)*x + (c + 2*e + k) := by
    intro x; unfold quadF; ring
  rw [hform, hform]
  refine quad1d_clamp_min a (-(2*b) - 2*d) (c + 2*e + k) ((b + d)/a) s ha ?_
    h0 h1
  field_simp
  ring

/-- In the fallback situation (unconstrained minimiser outside the unit
square), any value below all four clamped edge minima is below the whole
objective on the unit square. -/
theorem quad_min_fallback (a b c d e k s0 t0 m : ℚ)
    (hac : b^2 ≤ a*c) (ha : 0 < a) (hc : 0 < c)
    (hs : a*s0 - b*t0 = d) (ht : b*s0 - c*t0 = e)
    (hout : ¬(0 ≤ s0 ∧ s0 ≤ 1 ∧ 0 ≤ t0 ∧ t0 ≤ 1))
    (hm1 : m ≤ quadF a b c d e k 0 (clamp (-e/c)))
    (hm2 : m ≤ quadF a b c d e k 1 (clamp ((b - e)/c)))
    (hm3 : m ≤ quadF a b c d e k (clamp (d/a)) 0)
    (hm4 : m ≤ quadF a b c d e k (clamp ((b + d)/a)) 1)
    (s t : ℚ) (hs0 : 0 ≤ s) (hs1 : s ≤ 1) (ht0 : 0 ≤ t) (ht1 : t ≤ 1) :
    m ≤ quadF a b c d e k s t := by
  have hout' : ¬(0 ≤ s0 ∧ s0 ≤ 1 ∧ 0 ≤ t0 ∧ t0 ≤ 1) := hout
  obtain ⟨lam, hl0, hl1, hys0, hys1, hyt0, hyt1, hbd⟩ :=
    boxExit s0 t0 s t hs0 hs1 ht0 ht1 hout'
  have hray := quad_ray_mono a b c d e k s0 t0 s t lam hs ht hac ha.le hc.le
    hl0 hl1
  have hedge : m ≤ quadF a b c d e k (s0 + lam*(s - s0)) (t0 + lam*(t - t0))
      := by
    rcases hbd with hb | hb | hb | hb
    · rw [hb]
      exact le_trans hm1 (quad_edge_s0 a b c d e k hc _ hyt0 hyt1)
    · rw [hb]
      exact le_trans hm2 (quad_edge_s1 a b c d e k hc _ hyt0 hyt1)
    · rw [hb]
      exact le_trans hm3 (quad_edge_t0 a b c d e k ha _ hys0 hys1)
    · rw [hb]
      exact le_trans hm4 (quad_edge_t1 a b c d e k ha _ hys0 hys1)
  exact le_trans hedge hray

theorem quad_pd_zero (a b c x y : ℚ) (ha : 0 < a) (hac : b^2 < a*c)
    (h : a*x^2 - 2*b*x*y + c*y^2 ≤ 0) : x = 0 ∧ y = 0 := by
  have h1 : (a*c - b^2) * y^2 ≤ 0 := by
    nlinarith [sq_nonneg (a*x - b*y)]
  have hy2 : y^2 = 0 := le_antisymm (by nlinarith [sq_nonneg y]) (sq_nonneg y)
  have hy : y = 0 := pow_eq_zero_iff (by norm_num) |>.mp hy2
  subst hy
  have hx2 : x^2 = 0 := le_antisymm (by nlinarith) (sq_nonneg x)
  exact ⟨pow_eq_zero_iff (by norm_num) |>.mp hx2, rfl⟩

theorem quad_min_unique (a b c d e k x1 y1 x2 y2 : ℚ)
    (ha : 0 < a) (hac : b^2 < a*c)
    (heq : quadF a b c d e k x1 y1 = quadF a b c d e k x2 y2)
    (hmid : quadF a b c d e k x1 y1 ≤
      quadF a b c d e k ((x1 + x2)/2) ((y1 + y2)/2)) :
    x1 = x2 ∧ y1 = y2 := by
  have hpar : quadF a b c d e k ((x1 + x2)/2) ((y1 + y2)/2) =
      quadF a b c d e k x1 y1 / 2 + quadF a b c d e k x2 y2 / 2 -
      (a*((x1 - x2)/2)^2 - 2*b*((x1 - x2)/2)*((y1 - y2)/2) +
        c*((y1 - y2)/2)^2) := by
    unfold quadF; ring
  have hQ : a*((x1 - x2)/2)^2 - 2*b*((x1 - x2)/2)*((y1 - y2)/2) +
      c*((y1 - y2)/2)^2 ≤ 0 := by linarith
  obtain ⟨hx, hy⟩ := quad_pd_zero a b c _ _ ha hac hQ
  constructor
  · have : x1 - x2 = 0 := by linarith [hx, mul_self_nonneg (x1 - x2)]
    linarith
  · have : y1 - y2 = 0 := by
      have := hy
      linarith [this]
    linarith

theorem dot_sq_le (u v : Vec3) : dot u v ^ 2 ≤ dot u u * dot v v := by
  obtain ⟨ux, uy, uz⟩ := u
  obtain ⟨vx, vy, vz⟩ := v
  simp only [dot]
  nlinarith [sq_nonneg (ux*vy - uy*vx), sq_nonneg (uy*vz - uz*vy),
    sq_nonneg (uz*vx - ux*vz)]

/-- The squared-distance objective in scalar form: `pairDistSq` is the
quadratic `quadF` in the five dot products and `|w|²`. -/
theorem pairDistSq_eq_quadF (A1 A2 B1 B2 : Pt4) (s t : ℚ) :
    pairDistSq A1 A2 B1 B2 s t =
      quadF (dot (sub A2.pos A1.pos) (sub A2.pos A1.pos))
        (dot (sub A2.pos A1.pos) (sub B2.pos B1.pos))
        (dot (sub B2.pos B1.pos) (sub B2.pos B1.pos))
        (dot (sub A2.pos A1.pos) (sub B1.pos A1.pos))
        (dot (sub B2.pos B1.pos) (sub B1.pos A1.pos))
        (normSq (sub B1.pos A1.pos)) s t := by
  simp [pairDistSq, quadF, normSq, dot, sub, add, scale, Pt4.pos]
  ring

theorem normSq_sub_comm (X Y : Vec3) : normSq (sub X Y) = normSq (sub Y X) := by
  simp [normSq, dot, sub]
  ring

/-- The solver's direct-return branch, as an equation. -/
theorem solver_direct_eq (A1 A2 B1 B2 : Pt4) (eps : ℚ)
    (hin : 0 ≤ (lineParams A1 A2 B1 B2 eps).1 ∧
      (lineParams A1 A2 B1 B2 eps).1 ≤ 1 ∧
      0 ≤ (lineParams A1 A2 B1 B2 eps).2 ∧
      (lineParams A1 A2 B1 B2 eps).2 ≤ 1) :
    closestPointsOnSegmentsIn3D A1 A2 B1 B2 eps =
      ⟨add A1.pos (scale (sub A2.pos A1.pos)
          (clamp (lineParams A1 A2 B1 B2 eps).1)),
        add B1.pos (scale (sub B2.pos B1.pos)
          (clamp (lineParams A1 A2 B1 B2 eps).2)),
        normSq (sub
          (add A1.pos (scale (sub A2.pos A1.pos)
            (clamp (lineParams A1 A2 B1 B2 eps).1)))
          (add B1.pos (scale (sub B2.pos B1.pos)
            (clamp (lineParams A1 A2 B1 B2 eps).2)))),
        (timeCalculations A1.t A2.t (clamp (lineParams A1 A2 B1 B2 eps).1)
          B1.t B2.t (clamp (lineParams A1 A2 B1 B2 eps).2)).1,
        (timeCalculations A1.t A2.t (clamp (lineParams A1 A2 B1 B2 eps).1)
          B1.t B2.t (clamp (lineParams A1 A2 B1 B2 eps).2)).2⟩ := by
  simp only [closestPointsOnSegmentsIn3D]
  rw [if_pos hin]

/-- Core minimality result: when the three epsilon guards are inactive
(`a > eps`, `c > eps`, `|D| > eps` with `0 ≤ eps`), the solver's returned
squared distance is a lower bound for the squared distance at every parameter
pair of the unit square. -/
theorem solver_min_le_of_guards (A1 A2 B1 B2 : Pt4) (eps a b c d e : ℚ)
    (hadef : a = dot (sub A2.pos A1.pos) (sub A2.pos A1.pos))
    (hbdef : b = dot (sub A2.pos A1.pos) (sub B2.pos B1.pos))
    (hcdef : c = dot (sub B2.pos B1.pos) (sub B2.pos B1.pos))
    (hddef : d = dot (sub A2.pos A1.pos) (sub B1.pos A1.pos))
    (hedef : e = dot (sub B2.pos B1.pos) (sub B1.pos A1.pos))
    (heps : 0 ≤ eps) (ha : eps < a) (hc : eps < c)
    (hD : eps < |-(a*c) + b*b|) :
    ∀ s t : ℚ, 0 ≤ s → s ≤ 1 → 0 ≤ t → t ≤ 1 →
      (closestPointsOnSegmentsIn3D A1 A2 B1 B2 eps).dsq ≤
        pairDistSq A1 A2 B1 B2 s t := by
  intro s t hs0 hs1 ht0 ht1
  have hapos : 0 < a := lt_of_le_of_lt heps ha
  have hcpos : 0 < c := lt_of_le_of_lt heps hc
  have hD0 : -(a*c) + b*b ≠ 0 := by
    intro h
    rw [h] at hD
    simp at hD
    linarith
  have hac : b^2 ≤ a*c := by
    rw [hadef, hbdef, hcdef]
    exact dot_sq_le _ _
  obtain ⟨hsys1, hsys2⟩ := crit_solves a b c d e hD0
  have hexp : ∀ x y : ℚ, pairDistSq A1 A2 B1 B2 x y =
      quadF a b c d e (normSq (sub B1.pos A1.pos)) x y := by
    intro x y
    rw [hadef, hbdef, hcdef, hddef, hedef]
    exact pairDistSq_eq_quadF A1 A2 B1 B2 x y
  have hlp : lineParams A1 A2 B1 B2 eps =
      ((b*e - c*d) / (-(a*c) + b*b), (a*e - b*d) / (-(a*c) + b*b)) := by
    subst hadef hbdef hcdef hddef hedef
    simp only [lineParams]
    rw [if_pos hD]
  by_cases hin : 0 ≤ (b*e - c*d) / (-(a*c) + b*b) ∧
      (b*e - c*d) / (-(a*c) + b*b) ≤ 1 ∧
      0 ≤ (a*e - b*d) / (-(a*c) + b*b) ∧
      (a*e - b*d) / (-(a*c) + b*b) ≤ 1
  · have hdir := solver_direct_eq A1 A2 B1 B2 eps (by rw [hlp]; exact hin)
    rw [hdir, hlp]
    show pairDistSq A1 A2 B1 B2 (clamp ((b*e - c*d) / (-(a*c) + b*b)))
        (clamp ((a*e - b*d) / (-(a*c) + b*b))) ≤ pairDistSq A1 A2 B1 B2 s t
    rw [clamp_of_mem hin.1 hin.2.1, clamp_of_mem hin.2.2.1 hin.2.2.2,
      hexp, hexp]
    exact quad_min_direct a b c d e _ _ _ hac hapos.le hcpos.le hsys1 hsys2 s t
  · have hout : ¬(0 ≤ (lineParams A1 A2 B1 B2 eps).1 ∧
        (lineParams A1 A2 B1 B2 eps).1 ≤ 1 ∧
        0 ≤ (lineParams A1 A2 B1 B2 eps).2 ∧
        (lineParams A1 A2 B1 B2 eps).2 ≤ 1) := by
      rw [hlp]
      exact hin
    have hptsc1 : (pointToSegClosest B1.pos B2.pos A1.pos eps).2 =
        clamp (-e/c) := by
      subst hcdef hedef
      unfold pointToSegClosest
      dsimp only
      rw [if_pos hc]
      congr 1
      rw [neg_div]
      simp [dot, sub, Pt4.pos]
      ring
    have hptsc2 : (pointToSegClosest B1.pos B2.pos A2.pos eps).2 =
        clamp ((b - e)/c) := by
      subst hbdef hcdef hedef
      unfold pointToSegClosest
      dsimp only
      rw [if_pos hc]
      congr 1
      simp [dot, sub, Pt4.pos]
      ring
    have hptsc3 : (pointToSegClosest A1.pos A2.pos B1.pos eps).2 =
        clamp (d/a) := by
      subst hadef hddef
      unfold pointToSegClosest
      dsimp only
      rw [if_pos ha]
      congr 1
      simp [dot, sub, Pt4.pos]
      ring
    have hptsc4 : (pointToSegClosest A1.pos A2.pos B2.pos eps).2 =
        clamp ((b + d)/a) := by
      subst hadef hbdef hddef
      unfold pointToSegClosest
      dsimp only
      rw [if_pos ha]
      congr 1
      simp [dot, sub, Pt4.pos]
      ring
    have hc1val : normSq (sub A1.pos
        (pointToSegClosest B1.pos B2.pos A1.pos eps).1) =
        quadF a b c d e (normSq (sub B1.pos A1.pos)) 0 (clamp (-e/c)) := by
      rw [pointToSegClosest_fst, hptsc1, ← hexp]
      unfold pairDistSq
      rw [point_param_zero]
    have hc2val : normSq (sub A2.pos
        (pointToSegClosest B1.pos B2.pos A2.pos eps).1) =
        quadF a b c d e (normSq (sub B1.pos A1.pos)) 1 (clamp ((b - e)/c))
        := by
      rw [pointToSegClosest_fst, hptsc2, ← hexp]
      unfold pairDistSq
      rw [point_param_one]
    have hc3val : normSq (sub
        (pointToSegClosest A1.pos A2.pos B1.pos eps).1 B1.pos) =
        quadF a b c d e (normSq (sub B1.pos A1.pos)) (clamp (d/a)) 0 := by
      rw [pointToSegClosest_fst, hptsc3, ← hexp]
      unfold pairDistSq
      rw [point_param_zero]
    have hc4val : normSq (sub
        (pointToSegClosest A1.pos A2.pos B2.pos eps).1 B2.pos) =
        quadF a b c d e (normSq (sub B1.pos A1.pos)) (clamp ((b + d)/a)) 1
        := by
      rw [pointToSegClosest_fst, hptsc4, ← hexp]
      unfold pairDistSq
      rw [point_param_one]
    have hfb := solver_fallback_cases A1 A2 B1 B2 eps hout
    simp only at hfb
    rw [hexp s t]
    rcases hfb with ⟨heq, h12, h13, h14⟩ | ⟨heq, h21, h23, h24⟩ |
      ⟨heq, h31, h32, h34⟩ | ⟨heq, h41, h42, h43⟩ <;> rw [heq] <;> dsimp only
    · exact quad_min_fallback a b c d e _ _ _ _ hac hapos hcpos hsys1 hsys2
        hin (le_of_eq hc1val) (hc2val ▸ h12) (hc3val ▸ h13) (hc4val ▸ h14)
        s t hs0 hs1 ht0 ht1
    · exact quad_min_fallback a b c d e _ _ _ _ hac hapos hcpos hsys1 hsys2
        hin (hc1val ▸ h21.le) (le_of_eq hc2val) (hc3val ▸ h23) (hc4val ▸ h24)
        s t hs0 hs1 ht0 ht1
    · exact quad_min_fallback a b c d e _ _ _ _ hac hapos hcpos hsys1 hsys2
        hin (hc1val ▸ h31.le) (hc2val ▸ h32.le) (le_of_eq hc3val)
        (hc4val ▸ h34) s t hs0 hs1 ht0 ht1
    · exact quad_min_fallback a b c d e _ _ _ _ hac hapos hcpos hsys1 hsys2
        hin (hc1val ▸ h41.le) (hc2val ▸ h42.le) (hc3val ▸ h43.le)
        (le_of_eq hc4val) s t hs0 hs1 ht0 ht1

/-! ## C1: exactness of the returned minimum -/

/-- C1 counterexample: with a degenerate second segment (a single point), the
parallel/degenerate branch returns `(s, t) = (0, 0)` and reports the distance
from `P1 = (-1,0,0)` to `(0,1,0)` (squared distance 2), although the point at
parameter `1/2` of the first segment is at squared distance 1 from the second
segment — the returned distance is not the minimum over `s, t ∈ [0,1]`, and
the returned points do not attain the minimum. -/
theorem solver_misses_minimum_on_degenerate_segment :
    (closestPointsOnSegmentsIn3D ⟨-1, 0, 0, 0⟩ ⟨1, 0, 0, 1⟩ ⟨0, 1, 0, 0⟩
      ⟨0, 1, 0, 1⟩ defaultEps).dsq = 2 ∧
    pairDistSq ⟨-1, 0, 0, 0⟩ ⟨1, 0, 0, 1⟩ ⟨0, 1, 0, 0⟩ ⟨0, 1, 0, 1⟩
      (1/2) 0 = 1 ∧
    ¬((closestPointsOnSegmentsIn3D ⟨-1, 0, 0, 0⟩ ⟨1, 0, 0, 1⟩ ⟨0, 1, 0, 0⟩
        ⟨0, 1, 0, 1⟩ defaultEps).dsq ≤
      pairDistSq ⟨-1, 0, 0, 0⟩ ⟨1, 0, 0, 1⟩ ⟨0, 1, 0, 0⟩ ⟨0, 1, 0, 1⟩
        (1/2) 0) := by
  refine ⟨?_, ?_, ?_⟩ <;>
    norm_num [closestPointsOnSegmentsIn3D, lineParams, pointToSegClosest,
      pickBest, pairDistSq, sub, add, scale, dot, normSq, clamp,
      timeCalculations, defaultEps, Pt4.pos]

/-- C1 (amended): whenever the solver's three epsilon guards are inactive —
`dot(u,u) > eps`, `dot(v,v) > eps` and `|D| > eps` for a nonnegative `eps`
(the default is `1e-12`) — the returned distance is the true minimum of the
Euclidean distance over `s, t ∈ [0,1]` (stated on squared distances and, in
the last conjunct, on real square roots), and the two returned points attain
it. -/
theorem solver_returns_true_minimum_of_guards (A1 A2 B1 B2 : Pt4)
    (eps a b c d e : ℚ)
    (hadef : a = dot (sub A2.pos A1.pos) (sub A2.pos A1.pos))
    (hbdef : b = dot (sub A2.pos A1.pos) (sub B2.pos B1.pos))
    (hcdef : c = dot (sub B2.pos B1.pos) (sub B2.pos B1.pos))
    (hddef : d = dot (sub A2.pos A1.pos) (sub B1.pos A1.pos))
    (hedef : e = dot (sub B2.pos B1.pos) (sub B1.pos A1.pos))
    (heps : 0 ≤ eps) (ha : eps < a) (hc : eps < c)
    (hD : eps < |-(a*c) + b*b|) :
    (∀ s t : ℚ, 0 ≤ s → s ≤ 1 → 0 ≤ t → t ≤ 1 →
      (closestPointsOnSegmentsIn3D A1 A2 B1 B2 eps).dsq ≤
        pairDistSq A1 A2 B1 B2 s t) ∧
    (∃ σ τ : ℚ, 0 ≤ σ ∧ σ ≤ 1 ∧ 0 ≤ τ ∧ τ ≤ 1 ∧
      (closestPointsOnSegmentsIn3D A1 A2 B1 B2 eps).cp =
        add A1.pos (scale (sub A2.pos A1.pos) σ) ∧
      (closestPointsOnSegmentsIn3D A1 A2 B1 B2 eps).cq =
        add B1.pos (scale (sub B2.pos B1.pos) τ) ∧
      (closestPointsOnSegmentsIn3D A1 A2 B1 B2 eps).dsq =
        pairDistSq A1 A2 B1 B2 σ τ) ∧
    (∀ s t : ℚ, 0 ≤ s → s ≤ 1 → 0 ≤ t → t ≤ 1 →
      Real.sqrt ((closestPointsOnSegmentsIn3D A1 A2 B1 B2 eps).dsq : ℝ) ≤
        Real.sqrt ((pairDistSq A1 A2 B1 B2 s t : ℚ) : ℝ)) := by
  have hmin := solver_min_le_of_guards A1 A2 B1 B2 eps a b c d e hadef hbdef
    hcdef hddef hedef heps ha hc hD
  refine ⟨hmin, ?_, ?_⟩
  · obtain ⟨σ, τ, hσ0, hσ1, hτ0, hτ1, hcp, hcq, hnd, _, _⟩ :=
      solver_on_segments A1 A2 B1 B2 eps
    refine ⟨σ, τ, hσ0, hσ1, hτ0, hτ1, hcp, hcq, ?_⟩
    rw [hnd, hcp, hcq]
    rfl
  · intro s t hs0 hs1 ht0 ht1
    have := hmin s t hs0 hs1 ht0 ht1
    exact Real.sqrt_le_sqrt (by exact_mod_cast this)

/-- C1 witness: crossing perpendicular segments; all three guards hold and
the claim applies, e.g. at `(s, t) = (1/3, 2/3)`. -/
theorem solver_returns_true_minimum_of_guards_witness :
    (closestPointsOnSegmentsIn3D ⟨0, 0, 0, 0⟩ ⟨2, 0, 0, 2⟩ ⟨1, -1, 0, 0⟩
      ⟨1, 1, 0, 2⟩ defaultEps).dsq ≤
      pairDistSq ⟨0, 0, 0, 0⟩ ⟨2, 0, 0, 2⟩ ⟨1, -1, 0, 0⟩ ⟨1, 1, 0, 2⟩
        (1/3) (2/3) :=
  (solver_returns_true_minimum_of_guards ⟨0, 0, 0, 0⟩ ⟨2, 0, 0, 2⟩
    ⟨1, -1, 0, 0⟩ ⟨1, 1, 0, 2⟩ defaultEps 4 0 4 2 (-2)
    (by norm_num [dot, sub, Pt4.pos]) (by norm_num [dot, sub, Pt4.pos])
    (by norm_num [dot, sub, Pt4.pos]) (by norm_num [dot, sub, Pt4.pos])
    (by norm_num [dot, sub, Pt4.pos]) (by norm_num [defaultEps])
    (by norm_num [defaultEps]) (by norm_num [defaultEps])
    (by norm_num [defaultEps])).1
    (1/3) (2/3) (by norm_num) (by norm_num) (by norm_num) (by norm_num)

/-! ## C7: symmetry of the solver -/

theorem dot_comm' (x y : Vec3) : dot x y = dot y x := by
  simp [dot]
  ring

/-- C7 counterexample: with a degenerate segment the two orientations do not
even agree on the distance (squared distances 2 and 1), because only one
orientation's fallback can project onto the non-degenerate segment. -/
theorem solver_not_symmetric_on_degenerate_segment :
    (closestPointsOnSegmentsIn3D ⟨-1, 0, 0, 0⟩ ⟨1, 0, 0, 1⟩ ⟨0, 1, 0, 0⟩
      ⟨0, 1, 0, 1⟩ defaultEps).dsq = 2 ∧
    (closestPointsOnSegmentsIn3D ⟨0, 1, 0, 0⟩ ⟨0, 1, 0, 1⟩ ⟨-1, 0, 0, 0⟩
      ⟨1, 0, 0, 1⟩ defaultEps).dsq = 1 := by
  constructor <;>
    norm_num [closestPointsOnSegmentsIn3D, lineParams, pointToSegClosest,
      pickBest, sub, add, scale, dot, normSq, clamp, timeCalculations,
      defaultEps, Pt4.pos]

/-- C7 (amended): whenever the solver's three epsilon guards are inactive
(`dot(u,u) > eps`, `dot(v,v) > eps`, `|D| > eps`, `0 ≤ eps`), swapping the two
segments yields the same distance with the two closest points and the two
mapped times exchanged. -/
theorem solver_symmetric_of_guards (A1 A2 B1 B2 : Pt4)
    (eps a b c d e : ℚ)
    (hadef : a = dot (sub A2.pos A1.pos) (sub A2.pos A1.pos))
    (hbdef : b = dot (sub A2.pos A1.pos) (sub B2.pos B1.pos))
    (hcdef : c = dot (sub B2.pos B1.pos) (sub B2.pos B1.pos))
    (hddef : d = dot (sub A2.pos A1.pos) (sub B1.pos A1.pos))
    (hedef : e = dot (sub B2.pos B1.pos) (sub B1.pos A1.pos))
    (heps : 0 ≤ eps) (ha : eps < a) (hc : eps < c)
    (hD : eps < |-(a*c) + b*b|) :
    (closestPointsOnSegmentsIn3D B1 B2 A1 A2 eps).dsq =
      (closestPointsOnSegmentsIn3D A1 A2 B1 B2 eps).dsq ∧
    (closestPointsOnSegmentsIn3D B1 B2 A1 A2 eps).cp =
      (closestPointsOnSegmentsIn3D A1 A2 B1 B2 eps).cq ∧
    (closestPointsOnSegmentsIn3D B1 B2 A1 A2 eps).cq =
      (closestPointsOnSegmentsIn3D A1 A2 B1 B2 eps).cp ∧
    (closestPointsOnSegmentsIn3D B1 B2 A1 A2 eps).t1 =
      (closestPointsOnSegmentsIn3D A1 A2 B1 B2 eps).t2 ∧
    (closestPointsOnSegmentsIn3D B1 B2 A1 A2 eps).t2 =
      (closestPointsOnSegmentsIn3D A1 A2 B1 B2 eps).t1 := by
  have hapos : 0 < a := lt_of_le_of_lt heps ha
  have hD0 : -(a*c) + b*b ≠ 0 := by
    intro h
    rw [h] at hD
    simp at hD
    linarith
  have hac : b^2 ≤ a*c := by
    rw [hadef, hbdef, hcdef]
    exact dot_sq_le _ _
  have hacs : b^2 < a*c := by
    refine lt_of_le_of_ne hac fun h => hD0 ?_
    rw [← h]
    ring
  have hexp : ∀ x y : ℚ, pairDistSq A1 A2 B1 B2 x y =
      quadF a b c d e (normSq (sub B1.pos A1.pos)) x y := by
    intro x y
    rw [hadef, hbdef, hcdef, hddef, hedef]
    exact pairDistSq_eq_quadF A1 A2 B1 B2 x y
  have hswap : ∀ x y : ℚ, pairDistSq B1 B2 A1 A2 x y =
      pairDistSq A1 A2 B1 B2 y x := by
    intro x y
    unfold pairDistSq
    rw [normSq_sub_comm]
  have hminA := solver_min_le_of_guards A1 A2 B1 B2 eps a b c d e hadef
    hbdef hcdef hddef hedef heps ha hc hD
  have hminB := solver_min_le_of_guards B1 B2 A1 A2 eps c b a (-e) (-d)
    hcdef (by rw [hbdef]; exact dot_comm' _ _) hadef
    (by rw [hedef]; simp [dot, sub, Pt4.pos]; ring)
    (by rw [hddef]; simp [dot, sub, Pt4.pos]; ring)
    heps hc ha
    (by rw [show -(c*a) + b*b = -(a*c) + b*b from by ring]; exact hD)
  obtain ⟨σ, τ, hσ0, hσ1, hτ0, hτ1, hcp, hcq, hnd, hT1, hT2⟩ :=
    solver_on_segments A1 A2 B1 B2 eps
  obtain ⟨σ2, τ2, hσ20, hσ21, hτ20, hτ21, hcp2, hcq2, hnd2, hT12, hT22⟩ :=
    solver_on_segments B1 B2 A1 A2 eps
  have hdsqA : (closestPointsOnSegmentsIn3D A1 A2 B1 B2 eps).dsq =
      pairDistSq A1 A2 B1 B2 σ τ := by
    rw [hnd, hcp, hcq]
    rfl
  have hdsqB : (closestPointsOnSegmentsIn3D B1 B2 A1 A2 eps).dsq =
      pairDistSq A1 A2 B1 B2 τ2 σ2 := by
    rw [hnd2, hcp2, hcq2]
    rw [show normSq (sub (add B1.pos (scale (sub B2.pos B1.pos) σ2))
        (add A1.pos (scale (sub A2.pos A1.pos) τ2))) =
        pairDistSq B1 B2 A1 A2 σ2 τ2 from rfl]
    exact hswap σ2 τ2
  have h1 : (closestPointsOnSegmentsIn3D A1 A2 B1 B2 eps).dsq ≤
      pairDistSq A1 A2 B1 B2 τ2 σ2 := hminA τ2 σ2 hτ20 hτ21 hσ20 hσ21
  have h2 : (closestPointsOnSegmentsIn3D B1 B2 A1 A2 eps).dsq ≤
      pairDistSq A1 A2 B1 B2 σ τ := by
    have := hminB τ σ hτ0 hτ1 hσ0 hσ1
    rw [hswap τ σ] at this
    exact this
  have hEqm : (closestPointsOnSegmentsIn3D B1 B2 A1 A2 eps).dsq =
      (closestPointsOnSegmentsIn3D A1 A2 B1 B2 eps).dsq := by
    rw [hdsqA, hdsqB]
    rw [hdsqA] at h1
    rw [hdsqB] at h2
    exact le_antisymm h2 h1
  have heqv : quadF a b c d e (normSq (sub B1.pos A1.pos)) σ τ =
      quadF a b c d e (normSq (sub B1.pos A1.pos)) τ2 σ2 := by
    rw [← hexp, ← hexp, ← hdsqA, ← hdsqB]
    exact hEqm.symm
  have hmid : quadF a b c d e (normSq (sub B1.pos A1.pos)) σ τ ≤
      quadF a b c d e (normSq (sub B1.pos A1.pos)) ((σ + τ2)/2)
        ((τ + σ2)/2) := by
    rw [← hexp, ← hexp, ← hdsqA]
    exact hminA _ _ (by linarith) (by linarith) (by linarith) (by linarith)
  obtain ⟨hs_eq, ht_eq⟩ := quad_min_unique a b c d e
    (normSq (sub B1.pos A1.pos)) σ τ τ2 σ2 hapos hacs heqv hmid
  refine ⟨hEqm, ?_, ?_, ?_, ?_⟩
  · rw [hcp2, hcq, ht_eq]
  · rw [hcq2, hcp, hs_eq]
  · rw [hT12, hT2, ht_eq]
  · rw [hT22, hT1, hs_eq]

/-- C7 witness: the symmetry theorem applied to the crossing perpendicular
segments. -/
theorem solver_symmetric_of_guards_witness :
    (closestPointsOnSegmentsIn3D ⟨1, -1, 0, 0⟩ ⟨1, 1, 0, 2⟩ ⟨0, 0, 0, 0⟩
      ⟨2, 0, 0, 2⟩ defaultEps).dsq =
      (closestPointsOnSegmentsIn3D ⟨0, 0, 0, 0⟩ ⟨2, 0, 0, 2⟩ ⟨1, -1, 0, 0⟩
        ⟨1, 1, 0, 2⟩ defaultEps).dsq ∧
    (closestPointsOnSegmentsIn3D ⟨1, -1, 0, 0⟩ ⟨1, 1, 0, 2⟩ ⟨0, 0, 0, 0⟩
      ⟨2, 0, 0, 2⟩ defaultEps).cp =
      (closestPointsOnSegmentsIn3D ⟨0, 0, 0, 0⟩ ⟨2, 0, 0, 2⟩ ⟨1, -1, 0, 0⟩
        ⟨1, 1, 0, 2⟩ defaultEps).cq ∧
    (closestPointsOnSegmentsIn3D ⟨1, -1, 0, 0⟩ ⟨1, 1, 0, 2⟩ ⟨0, 0, 0, 0⟩
      ⟨2, 0, 0, 2⟩ defaultEps).cq =
      (closestPointsOnSegmentsIn3D ⟨0, 0, 0, 0⟩ ⟨2, 0, 0, 2⟩ ⟨1, -1, 0, 0⟩
        ⟨1, 1, 0, 2⟩ defaultEps).cp ∧
    (closestPointsOnSegmentsIn3D ⟨1, -1, 0, 0⟩ ⟨1, 1, 0, 2⟩ ⟨0, 0, 0, 0⟩
      ⟨2, 0, 0, 2⟩ defaultEps).t1 =
      (closestPointsOnSegmentsIn3D ⟨0, 0, 0, 0⟩ ⟨2, 0, 0, 2⟩ ⟨1, -1, 0, 0⟩
        ⟨1, 1, 0, 2⟩ defaultEps).t2 ∧
    (closestPointsOnSegmentsIn3D ⟨1, -1, 0, 0⟩ ⟨1, 1, 0, 2⟩ ⟨0, 0, 0, 0⟩
      ⟨2, 0, 0, 2⟩ defaultEps).t2 =
      (closestPointsOnSegmentsIn3D ⟨0, 0, 0, 0⟩ ⟨2, 0, 0, 2⟩ ⟨1, -1, 0, 0⟩
        ⟨1, 1, 0, 2⟩ defaultEps).t1 :=
  solver_symmetric_of_guards ⟨0, 0, 0, 0⟩ ⟨2, 0, 0, 2⟩ ⟨1, -1, 0, 0⟩
    ⟨1, 1, 0, 2⟩ defaultEps 4 0 4 2 (-2)
    (by norm_num [dot, sub, Pt4.pos]) (by norm_num [dot, sub, Pt4.pos])
    (by norm_num [dot, sub, Pt4.pos]) (by norm_num [dot, sub, Pt4.pos])
    (by norm_num [dot, sub, Pt4.pos]) (by norm_num [defaultEps])
    (by norm_num [defaultEps]) (by norm_num [defaultEps])
    (by norm_num [defaultEps])

/-! ## C10: internal consistency of conflict records -/

theorem solver_dsq_eq_points (A1 A2 B1 B2 : Pt4) (eps : ℚ) :
    (closestPointsOnSegmentsIn3D A1 A2 B1 B2 eps).dsq =
      normSq (sub (closestPointsOnSegmentsIn3D A1 A2 B1 B2 eps).cp
        (closestPointsOnSegmentsIn3D A1 A2 B1 B2 eps).cq) := by
  obtain ⟨σ, τ, _, _, _, _, _, _, h, _, _⟩ := solver_on_segments A1 A2 B1 B2 eps
  exact h

theorem checkForConflictsSq_payload (sa : SpatialAnalyzer) (r : SegResult) :
    (checkForConflictsSq sa r).2 = none ∨
      (checkForConflictsSq sa r).2 = some (r.cp, r.cq, r.t1, r.t2) := by
  unfold checkForConflictsSq
  split_ifs <;> simp

theorem pairRecords_consistent (sa : SpatialAnalyzer) (ref : ℚ)
    (id1 : String) (pseg oseg : Pt4 × Pt4) (i j : ℕ) (rec : ConflictRecord)
    (h : rec ∈ pairRecords sa ref id1 pseg oseg i j) :
    rec.minDistSq = normSq (sub rec.locationPrimary rec.locationOther) ∧
    rec.primarySegment = i ∧ rec.otherSegment = j := by
  unfold pairRecords at h
  dsimp only at h
  rcases checkForConflictsSq_payload sa
      (closestPointsOnSegmentsIn3D pseg.1 pseg.2 oseg.1 oseg.2) with hp | hp <;>
    rw [hp] at h <;> dsimp only at h
  · simp [ite_self] at h
  · split_ifs at h <;>
      first
        | (simp only [List.mem_singleton] at h
           subst h
           exact ⟨solver_dsq_eq_points pseg.1 pseg.2 oseg.1 oseg.2 defaultEps,
             rfl, rfl⟩)
        | simp at h

/-- C10: every conflict record produced by `check_spatial_conflicts` is
internally consistent: its `min_distance` field is exactly the Euclidean
distance between its `location_primary` and `location_other` points (here at
the level of squares: `minDistSq = normSq (location_primary -
location_other)`), in both the direct-return and endpoint-fallback branches of
the solver. -/
theorem checkSpatialConflicts_records_consistent (sa : SpatialAnalyzer)
    (p o : List Waypoint) (id1 : String) (L : List ConflictRecord)
    (hL : checkSpatialConflicts sa p o id1 = some L)
    (rec : ConflictRecord) (hrec : rec ∈ L) :
    rec.minDistSq = normSq (sub rec.locationPrimary rec.locationOther) := by
  rcases hl : (p ++ o).map (·.timestamp) with _ | ⟨t0, ts⟩ <;>
    unfold checkSpatialConflicts at hL <;> rw [hl] at hL
  · exact absurd hL (by simp)
  · dsimp only at hL
    rcases Option.some.inj hL with hL2
    rw [← hL2] at hrec
    simp only [List.mem_flatMap] at hrec
    obtain ⟨ip, _, hrec⟩ := hrec
    obtain ⟨jo, _, hrec⟩ := hrec
    exact (pairRecords_consistent sa _ id1 ip.2 jo.2 ip.1 jo.1 rec hrec).1

/-! ## C3: the aggregation loop structure -/

/-- Specification-shaped per-pair aggregation, written with explicit index
ranges: the reference epoch is the minimum timestamp over the two paths, and
every `(i, j)` in the ascending lexicographic enumeration of
`range (primary segments) × range (other segments)` contributes its conflict
record (when the level is non-zero) tagged with `i` and `j`.  This is the
form the claim describes; the theorem identifies it with the translated
`checkSpatialConflicts`. -/
def crossPair (sa : SpatialAnalyzer) (p o : List Waypoint) (id1 : String) :
    List ConflictRecord :=
  match (p ++ o).map (·.timestamp) with
  | [] => []
  | t0 :: ts =>
    let ref := ts.foldl min t0
    (List.range (p.length - 1)).flatMap fun i =>
      (List.range (o.length - 1)).flatMap fun j =>
        pairRecords sa ref id1
          (wpToPt4 ref (p.getD i default), wpToPt4 ref (p.getD (i + 1) default))
          (wpToPt4 ref (o.getD j default), wpToPt4 ref (o.getD (j + 1) default))
          i j

/-- Specification-shaped aggregation over all drones: concatenation of the
per-drone cross products, other drones in input order. -/
def crossConflicts (sa : SpatialAnalyzer) (p : List Waypoint)
    (flights : List Flight) : List ConflictRecord :=
  flights.flatMap fun f => crossPair sa p f.waypoints f.droneId

theorem flatMap_congr {α β : Type} {l : List α} {f g : α → List β}
    (h : ∀ a ∈ l, f a = g a) : l.flatMap f = l.flatMap g := by
  induction l with
  | nil => rfl
  | cons a l ih =>
    simp only [List.flatMap_cons]
    rw [h a (by simp), ih fun x hx => h x (by simp [hx])]

theorem enumFrom_flatMap_eq_range {α β : Type} [Inhabited α] (l : List α) :
    ∀ (n : ℕ) (g : ℕ → α → List β),
    (List.enumFrom n l).flatMap (fun x => g x.1 x.2) =
      (List.range l.length).flatMap fun i => g (n + i) (l.getD i default) := by
  induction l with
  | nil => intro n g; rfl
  | cons a l ih =>
    intro n g
    rw [List.enumFrom_cons, List.flatMap_cons, ih (n + 1) g,
      List.length_cons, List.range_succ_eq_map, List.flatMap_cons,
      List.flatMap_map]
    congr 1
    refine flatMap_congr fun i hi => ?_
    rw [show n + 1 + i = n + (i + 1) from by omega]
    rfl

theorem enum_flatMap_eq_range {α β : Type} [Inhabited α] (l : List α)
    (g : ℕ → α → List β) :
    l.enum.flatMap (fun x => g x.1 x.2) =
      (List.range l.length).flatMap fun i => g i (l.getD i default) := by
  rw [show l.enum = List.enumFrom 0 l from rfl,
    enumFrom_flatMap_eq_range l 0 g]
  exact flatMap_congr fun i hi => by rw [Nat.zero_add]

theorem convert_length (ref : ℚ) (ws : List Waypoint) :
    (convertWaypointsToSegments ref ws).length = ws.length - 1 := by
  unfold convertWaypointsToSegments
  rw [List.length_map, List.length_range]

theorem convert_getD (ref : ℚ) (ws : List Waypoint) (i : ℕ)
    (h : i < ws.length - 1) :
    (convertWaypointsToSegments ref ws).getD i default =
      (wpToPt4 ref (ws.getD i default), wpToPt4 ref (ws.getD (i + 1) default))
      := by
  unfold convertWaypointsToSegments
  rw [List.getD_eq_getElem?_getD, List.getElem?_map, List.getElem?_range h]
  rfl

theorem foldl_min_facts (ts : List ℚ) (t0 : ℚ) :
    (∀ x ∈ ts, ts.foldl min t0 ≤ x) ∧ ts.foldl min t0 ≤ t0 ∧
      (ts.foldl min t0 = t0 ∨ ts.foldl min t0 ∈ ts) := by
  induction ts generalizing t0 with
  | nil => exact ⟨by simp, le_refl _, Or.inl rfl⟩
  | cons a ts ih =>
    obtain ⟨h1, h2, h3⟩ := ih (min t0 a)
    refine ⟨?_, h2.trans (min_le_left _ _), ?_⟩
    · intro x hx
      rcases List.mem_cons.mp hx with rfl | hx
      · exact h2.trans (min_le_right _ _)
      · exact h1 x hx
    · rcases h3 with h3 | h3
      · rcases min_choice t0 a with hm | hm
        · exact Or.inl (by rw [List.foldl_cons, h3, hm])
        · exact Or.inr (by rw [List.foldl_cons, h3, hm]; exact List.mem_cons_self a ts)
      · exact Or.inr (List.mem_cons_of_mem a h3)

theorem checkSpatialConflicts_eq_crossPair (sa : SpatialAnalyzer)
    (p o : List Waypoint) (id1 : String) (hne : p ++ o ≠ []) :
    checkSpatialConflicts sa p o id1 = some (crossPair sa p o id1) := by
  rcases hl : (p ++ o).map (·.timestamp) with _ | ⟨t0, ts⟩
  · exact absurd (List.map_eq_nil_iff.mp hl) hne
  · unfold checkSpatialConflicts crossPair
    rw [hl]
    dsimp only
    congr 1
    have houter := enum_flatMap_eq_range
      (convertWaypointsToSegments (ts.foldl min t0) p)
      (fun i x => (convertWaypointsToSegments (ts.foldl min t0) o).enum.flatMap
        fun jo => pairRecords sa (ts.foldl min t0) id1 x jo.2 i jo.1)
    rw [houter, convert_length]
    refine flatMap_congr fun i hi => ?_
    have hib : i < p.length - 1 := List.mem_range.mp hi
    rw [convert_getD _ _ _ hib]
    have hinner := enum_flatMap_eq_range
      (convertWaypointsToSegments (ts.foldl min t0) o)
      (fun j x => pairRecords sa (ts.foldl min t0) id1
        (wpToPt4 (ts.foldl min t0) (p.getD i default),
          wpToPt4 (ts.foldl min t0) (p.getD (i + 1) default)) x i j)
    rw [hinner, convert_length]
    refine flatMap_congr fun j hj => ?_
    have hjb : j < o.length - 1 := List.mem_range.mp hj
    rw [convert_getD _ _ _ hjb]

/-- C3: with a non-empty primary path, `detect_all_conflicts` never fails and
returns exactly the specification-shaped aggregation (`crossConflicts`): the
solver and classifier are evaluated for every (primary segment, other
segment) pair of every other drone — the full cross product, no pruning —
against a reference epoch equal to the minimum timestamp across the two paths
compared, appending one record per non-zero-level pair in encounter order
(drones in input order, primary index ascending, then other index ascending),
each record carrying its pair's indices; moreover, each drone's reference
epoch is a timestamp of one of the two paths and is less than or equal to
every timestamp of both. -/
theorem detectAllConflicts_cross_product (sa : SpatialAnalyzer)
    (p : List Waypoint) (flights : List Flight) (hp : p ≠ []) :
    detectAllConflicts sa p flights = some (crossConflicts sa p flights) ∧
    ∀ f ∈ flights, ∀ t0 ts,
      (p ++ f.waypoints).map (·.timestamp) = t0 :: ts →
        (ts.foldl min t0 ∈ (p ++ f.waypoints).map (·.timestamp) ∧
          ∀ q ∈ p ++ f.waypoints, ts.foldl min t0 ≤ q.timestamp) := by
  constructor
  · induction flights with
    | nil => rfl
    | cons f rest ih =>
      have hne : p ++ f.waypoints ≠ [] := by
        intro h
        exact hp (List.append_eq_nil.mp h).1
      unfold detectAllConflicts
      rw [checkSpatialConflicts_eq_crossPair sa p f.waypoints f.droneId hne]
      rw [show detectAllConflicts sa p rest = some (crossConflicts sa p rest)
        from ih]
      rfl
  · intro f _ t0 ts hmap
    obtain ⟨h1, h2, h3⟩ := foldl_min_facts ts t0
    constructor
    · rw [hmap]
      rcases h3 with h3 | h3
      · rw [h3]; exact List.mem_cons_self t0 ts
      · exact List.mem_cons_of_mem t0 h3
    · intro q hq
      have : q.timestamp ∈ (p ++ f.waypoints).map (·.timestamp) :=
        List.mem_map_of_mem _ hq
      rw [hmap] at this
      rcases List.mem_cons.mp this with heq | hmem
      · rw [heq]; exact h2
      · exact h1 _ hmem

/-- C3 witness: the cross-product characterisation applied to one drone pair
with one segment each. -/
theorem detectAllConflicts_cross_product_witness :
    detectAllConflicts ⟨10, 2⟩ [⟨0, 0, 0, 0⟩, ⟨2, 0, 0, 2⟩]
        [⟨"d2", [⟨1, -1, 0, 0⟩, ⟨1, 1, 0, 2⟩]⟩] =
      some (crossConflicts ⟨10, 2⟩ [⟨0, 0, 0, 0⟩, ⟨2, 0, 0, 2⟩]
        [⟨"d2", [⟨1, -1, 0, 0⟩, ⟨1, 1, 0, 2⟩]⟩]) :=
  (detectAllConflicts_cross_product ⟨10, 2⟩ [⟨0, 0, 0, 0⟩, ⟨2, 0, 0, 2⟩]
    [⟨"d2", [⟨1, -1, 0, 0⟩, ⟨1, 1, 0, 2⟩]⟩] (by simp)).1

/-- C10 witness: a concrete crossing scenario producing one SPATIOTEMPORAL
record, checked to be internally consistent. -/
theorem checkSpatialConflicts_records_consistent_witness :
    checkSpatialConflicts ⟨10, 2⟩ [⟨0, 0, 0, 0⟩, ⟨2, 0, 0, 2⟩]
        [⟨1, -1, 0, 0⟩, ⟨1, 1, 0, 2⟩] "d2" =
      some [⟨"d2", 0, ⟨1, 0, 0⟩, ⟨1, 0, 0⟩, 1, 1, 0, true, true,
        "SPATIOTEMPORAL", 0, 0⟩] ∧
    (⟨"d2", 0, ⟨1, 0, 0⟩, ⟨1, 0, 0⟩, 1, 1, 0, true, true, "SPATIOTEMPORAL",
        0, 0⟩ : ConflictRecord).minDistSq =
      normSq (sub
        (⟨"d2", 0, ⟨1, 0, 0⟩, ⟨1, 0, 0⟩, 1, 1, 0, true, true,
          "SPATIOTEMPORAL", 0, 0⟩ : ConflictRecord).locationPrimary
        (⟨"d2", 0, ⟨1, 0, 0⟩, ⟨1, 0, 0⟩, 1, 1, 0, true, true,
          "SPATIOTEMPORAL", 0, 0⟩ : ConflictRecord).locationOther) := by
  have h : checkSpatialConflicts ⟨10, 2⟩ [⟨0, 0, 0, 0⟩, ⟨2, 0, 0, 2⟩]
      [⟨1, -1, 0, 0⟩, ⟨1, 1, 0, 2⟩] "d2" =
      some [⟨"d2", 0, ⟨1, 0, 0⟩, ⟨1, 0, 0⟩, 1, 1, 0, true, true,
        "SPATIOTEMPORAL", 0, 0⟩] := by
    norm_num [checkSpatialConflicts, convertWaypointsToSegments, wpToPt4,
      pairRecords, checkForConflictsSq, ltSqrt,
      SpatialAnalyzer.safetyThreshold, closestPointsOnSegmentsIn3D,
      lineParams, clamp, timeCalculations, sub, add, scale, dot, normSq,
      Pt4.pos, defaultEps, List.range_succ, List.enum]
  exact ⟨h, checkSpatialConflicts_records_consistent ⟨10, 2⟩ _ _ "d2" _ h _
    (by simp)⟩

/-- C6 witness: a fallback input (parallel segments, unclamped `t = 2`) on
which the second candidate wins and the equally-distant third candidate does
not displace it (first-found tie-break). -/
theorem solver_fallback_selects_best_of_four_witness :
    ¬(0 ≤ (lineParams ⟨0, 0, 0, 0⟩ ⟨1, 0, 0, 1⟩ ⟨2, 1, 0, 0⟩ ⟨3, 1, 0, 1⟩
        defaultEps).1 ∧
      (lineParams ⟨0, 0, 0, 0⟩ ⟨1, 0, 0, 1⟩ ⟨2, 1, 0, 0⟩ ⟨3, 1, 0, 1⟩
        defaultEps).1 ≤ 1 ∧
      0 ≤ (lineParams ⟨0, 0, 0, 0⟩ ⟨1, 0, 0, 1⟩ ⟨2, 1, 0, 0⟩ ⟨3, 1, 0, 1⟩
        defaultEps).2 ∧
      (lineParams ⟨0, 0, 0, 0⟩ ⟨1, 0, 0, 1⟩ ⟨2, 1, 0, 0⟩ ⟨3, 1, 0, 1⟩
        defaultEps).2 ≤ 1) ∧
    closestPointsOnSegmentsIn3D ⟨0, 0, 0, 0⟩ ⟨1, 0, 0, 1⟩ ⟨2, 1, 0, 0⟩
        ⟨3, 1, 0, 1⟩ defaultEps =
      ⟨⟨1, 0, 0⟩, ⟨2, 1, 0⟩, 2, 1, 0⟩ := by
  have hout : ¬(0 ≤ (lineParams ⟨0, 0, 0, 0⟩ ⟨1, 0, 0, 1⟩ ⟨2, 1, 0, 0⟩
      ⟨3, 1, 0, 1⟩ defaultEps).1 ∧
      (lineParams ⟨0, 0, 0, 0⟩ ⟨1, 0, 0, 1⟩ ⟨2, 1, 0, 0⟩ ⟨3, 1, 0, 1⟩
        defaultEps).1 ≤ 1 ∧
      0 ≤ (lineParams ⟨0, 0, 0, 0⟩ ⟨1, 0, 0, 1⟩ ⟨2, 1, 0, 0⟩ ⟨3, 1, 0, 1⟩
        defaultEps).2 ∧
      (lineParams ⟨0, 0, 0, 0⟩ ⟨1, 0, 0, 1⟩ ⟨2, 1, 0, 0⟩ ⟨3, 1, 0, 1⟩
        defaultEps).2 ≤ 1) := by
    norm_num [lineParams, sub, dot, Pt4.pos, defaultEps]
  refine ⟨hout, ?_⟩
  have h := solver_fallback_selects_best_of_four ⟨0, 0, 0, 0⟩ ⟨1, 0, 0, 1⟩
    ⟨2, 1, 0, 0⟩ ⟨3, 1, 0, 1⟩ defaultEps hout
  simp only at h
  rcases h with ⟨heq, hle, _, _⟩ | ⟨heq, _, _, _⟩ | ⟨heq, _, hlt, _⟩ |
    ⟨heq, _, _, hlt⟩
  · exfalso
    revert hle
    norm_num [pointToSegClosest, sub, add, scale, dot, normSq, clamp,
      Pt4.pos, defaultEps]
  · rw [heq]
    norm_num [pointToSegClosest, timeCalculations, sub, add, scale, dot,
      normSq, clamp, Pt4.pos, defaultEps]
  · exfalso
    revert hlt
    norm_num [pointToSegClosest, sub, add, scale, dot, normSq, clamp,
      Pt4.pos, defaultEps]
  · exfalso
    revert hlt
    norm_num [pointToSegClosest, sub, add, scale, dot, normSq, clamp,
      Pt4.pos, defaultEps]

end UAV

